import Mathlib

/-!
Verification development for the Creativ44 voxel-sandbox world-simulation core.

The definitions below are a shallow embedding of the TypeScript source:
  - `src/src/game/worldgen.ts`  (chunk layout, `getIndex`, `getBlock`, `setBlock`,
    `placeTree`, `placeBirchTree`),
  - the game-renderer module (`getBlockAt`, `getBlockAtLoaded`, `setLoadedBlockFast`,
    `setBlockAt`, `updateRedstone`, `updateWaterFlow`, `collideAxis`, the physics
    portion of `update`, `breakBlock`, `collapseTree`, `explodeTNT`,
    `applyMultiplayerBlockEvents`),
  - the physics engine module (`shouldBlockFall`, `makeFallingBlock`,
    `createExplosion`),
  - the constants module (`BlockType`, world dimensions, player dimensions,
    `isCollidable`).

JavaScript numbers are embedded as `Int` where the program only ever holds
integers and as `Rat` where fractional values flow; `Math.floor` is `Int.floor`,
the JavaScript remainder operator is `Int.tmod` (sign of the dividend), and
`Math.floor(a / b)` on integers is `Int.fdiv`.  A `Uint8Array` is embedded as a
function from indices to byte values, a JavaScript `Map` as an insertion-ordered
association list and a JavaScript `Set` as an insertion-ordered duplicate-free
list.  `Math.random()` is embedded as an explicit stream of rationals consumed
one value per call.
-/

namespace Creativ44

/-! ### Constants (constants module) -/

def CHUNK_SIZE : Int := 16

def CHUNK_HEIGHT : Int := 80

def SEA_LEVEL : Int := 30

def BEDROCK_LEVEL : Int := 0

def WATER_LEVEL : Int := 28

def PLAYER_HEIGHT : ℚ := 17/10

def PLAYER_WIDTH : ℚ := 6/10

def GRAVITY : ℚ := 20

def JUMP_FORCE : ℚ := 8

/-- `BlockType` is a numeric enum in the source; we embed it as `Nat` with the
same numeric values. -/
abbrev BlockType := Nat

namespace B

def AIR : BlockType := 0

def GRASS : BlockType := 1

def DIRT : BlockType := 2

def STONE : BlockType := 3

def BEDROCK : BlockType := 4

def WOOD : BlockType := 5

def LEAVES : BlockType := 6

def SAND : BlockType := 7

def WATER : BlockType := 8

def FLOWER_RED : BlockType := 9

def FLOWER_YELLOW : BlockType := 10

def TALL_GRASS : BlockType := 11

def MUSHROOM_RED : BlockType := 12

def MUSHROOM_BROWN : BlockType := 13

def COBBLESTONE : BlockType := 14

def PLANKS : BlockType := 15

def REDSTONE_DUST : BlockType := 18

def REDSTONE_TORCH : BlockType := 19

def REDSTONE_BLOCK : BlockType := 20

def REDSTONE_LAMP : BlockType := 21

def REDSTONE_REPEATER : BlockType := 22

def LEVER : BlockType := 23

def BUTTON : BlockType := 24

def TNT : BlockType := 26

def COMPARATOR : BlockType := 28

def NOTE_BLOCK : BlockType := 29

def TORCH : BlockType := 35

def LOG_BIRCH : BlockType := 41

def FERN : BlockType := 48

def SUGAR_CANE : BlockType := 49

def SUNFLOWER : BlockType := 51

def ROSE_BUSH : BlockType := 52

def LILAC : BlockType := 53

def LILY_PAD : BlockType := 54

def GRAVEL : BlockType := 57

def LEAVES_BIRCH : BlockType := 59

def COMMAND_BLOCK : BlockType := 62

def ANVIL : BlockType := 99

end B

/-- `DECORATIVE_BLOCKS` from the constants module (as a list; the source uses a
`Set` only for membership tests). -/
def DECORATIVE_BLOCKS : List BlockType :=
  [B.FLOWER_RED, B.FLOWER_YELLOW, B.TALL_GRASS, B.MUSHROOM_RED,
   B.MUSHROOM_BROWN, B.TORCH, B.REDSTONE_DUST, B.REDSTONE_TORCH,
   B.LEVER, B.BUTTON, B.FERN, B.SUGAR_CANE,
   B.SUNFLOWER, B.ROSE_BUSH, B.LILAC, B.LILY_PAD]

/-- `isCollidable` from the constants module. -/
def isCollidable (b : BlockType) : Bool :=
  b ≠ B.AIR && !(DECORATIVE_BLOCKS.contains b) && b ≠ B.WATER

/-! ### JavaScript integer helpers -/

/-- The JavaScript remainder-then-shift idiom `((n % 16) + 16) % 16` used for
local chunk coordinates (`%` on JavaScript integers truncates toward zero,
i.e. `Int.tmod`). -/
def wrap16 (n : Int) : Int := ((n.tmod 16) + 16).tmod 16

/-- `Math.floor(n / 16)` on integers, used for chunk coordinates. -/
def chunkCoord (n : Int) : Int := n.fdiv 16

theorem wrap16_eq_emod (x : Int) : wrap16 x = x % 16 := by
  have key : ∀ a : Int, 0 ≤ a → a.tmod 16 = a % 16 := fun a ha =>
    Int.tmod_eq_emod ha (by norm_num)
  unfold wrap16
  rcases le_or_lt 0 x with h | h
  · have h1 := key x h
    have h2 := key (x.tmod 16 + 16)
      (by have := Int.emod_nonneg x (by norm_num : (16:Int) ≠ 0); omega)
    rw [h2, h1]
    omega
  · have hneg : x.tmod 16 = -((-x).tmod 16) := by
      rw [Int.tmod_def, Int.tmod_def, Int.neg_tdiv]; ring
    have h3 := key (-x) (by omega)
    have hub : (-x) % 16 < 16 := Int.emod_lt_of_pos (-x) (by norm_num)
    have hlb : 0 ≤ (-x) % 16 := Int.emod_nonneg (-x) (by norm_num)
    have h2 := key (x.tmod 16 + 16) (by omega)
    rw [h2]
    omega

theorem chunkCoord_eq_ediv (x : Int) : chunkCoord x = x / 16 :=
  Int.fdiv_eq_ediv x (by norm_num)

theorem wrap16_nonneg (x : Int) : 0 ≤ wrap16 x := by
  rw [wrap16_eq_emod]; exact Int.emod_nonneg x (by norm_num)

theorem wrap16_lt (x : Int) : wrap16 x < 16 := by
  rw [wrap16_eq_emod]; exact Int.emod_lt_of_pos x (by norm_num)

theorem wrap16_add_chunkCoord (x : Int) : 16 * chunkCoord x + wrap16 x = x := by
  rw [wrap16_eq_emod, chunkCoord_eq_ediv]
  exact Int.ediv_add_emod x 16

/-! ### Chunk data (`worldgen.ts`) -/

/-- `ChunkData` from `worldgen.ts`: a dense `Uint8Array` of `16*16*80` bytes
(embedded as a function from indices) plus the chunk coordinates. -/
structure ChunkData where
  blocks : Nat → BlockType
  cx : Int
  cz : Int

/-- `getIndex` from `worldgen.ts`: `x + z * CHUNK_SIZE + y * CHUNK_SIZE * CHUNK_SIZE`. -/
def getIndex (x y z : Int) : Int := x + z * CHUNK_SIZE + y * CHUNK_SIZE * CHUNK_SIZE

/-- `getBlock` from `worldgen.ts`. -/
def getBlock (c : ChunkData) (x y z : Int) : BlockType :=
  if x < 0 ∨ CHUNK_SIZE ≤ x ∨ y < 0 ∨ CHUNK_HEIGHT ≤ y ∨ z < 0 ∨ CHUNK_SIZE ≤ z then
    B.AIR
  else
    c.blocks (getIndex x y z).toNat

/-- `setBlock` from `worldgen.ts` (aliased `setBlockInChunk` by the renderer). -/
def setBlock (c : ChunkData) (x y z : Int) (t : BlockType) : ChunkData :=
  if x < 0 ∨ CHUNK_SIZE ≤ x ∨ y < 0 ∨ CHUNK_HEIGHT ≤ y ∨ z < 0 ∨ CHUNK_SIZE ≤ z then
    c
  else
    { c with blocks := fun i => if i = (getIndex x y z).toNat then t else c.blocks i }

theorem getIndex_inj {x y z x' y' z' : Int}
    (hx : 0 ≤ x) (hx16 : x < 16) (hy : 0 ≤ y) (hy80 : y < 80)
    (hz : 0 ≤ z) (hz16 : z < 16)
    (hx' : 0 ≤ x') (hx16' : x' < 16) (hy' : 0 ≤ y') (hy80' : y' < 80)
    (hz' : 0 ≤ z') (hz16' : z' < 16)
    (h : (getIndex x y z).toNat = (getIndex x' y' z').toNat) :
    x = x' ∧ y = y' ∧ z = z' := by
  unfold getIndex CHUNK_SIZE at h
  omega

/-- Reading a chunk after `setBlock`: an in-range write is visible exactly at
the written coordinate, everything else is unchanged. -/
theorem getBlock_setBlock (c : ChunkData) (x y z : Int) (t : BlockType) (x' y' z' : Int) :
    getBlock (setBlock c x y z t) x' y' z' =
      if x' = x ∧ y' = y ∧ z' = z ∧
          ¬(x < 0 ∨ CHUNK_SIZE ≤ x ∨ y < 0 ∨ CHUNK_HEIGHT ≤ y ∨ z < 0 ∨ CHUNK_SIZE ≤ z) then
        t
      else getBlock c x' y' z' := by
  by_cases hw : x < 0 ∨ CHUNK_SIZE ≤ x ∨ y < 0 ∨ CHUNK_HEIGHT ≤ y ∨ z < 0 ∨ CHUNK_SIZE ≤ z
  · have hs : setBlock c x y z t = c := by unfold setBlock; simp [hw]
    rw [hs]
    simp [hw]
  · have hs : setBlock c x y z t =
        { c with blocks := fun i => if i = (getIndex x y z).toNat then t else c.blocks i } := by
      unfold setBlock; simp [hw]
    rw [hs]
    by_cases hr : x' < 0 ∨ CHUNK_SIZE ≤ x' ∨ y' < 0 ∨ CHUNK_HEIGHT ≤ y' ∨ z' < 0 ∨ CHUNK_SIZE ≤ z'
    · have hcond : ¬(x' = x ∧ y' = y ∧ z' = z ∧
          ¬(x < 0 ∨ CHUNK_SIZE ≤ x ∨ y < 0 ∨ CHUNK_HEIGHT ≤ y ∨ z < 0 ∨ CHUNK_SIZE ≤ z)) := by
        rintro ⟨hx, hy, hz, -⟩
        subst hx; subst hy; subst hz
        exact hw hr
      rw [if_neg hcond]
      unfold getBlock
      simp [hr]
    · unfold getBlock
      rw [if_neg hr, if_neg hr]
      unfold CHUNK_SIZE CHUNK_HEIGHT at hw hr
      push_neg at hw hr
      by_cases hc : x' = x ∧ y' = y ∧ z' = z
      · obtain ⟨hx, hy, hz⟩ := hc
        subst hx; subst hy; subst hz
        have hcond2 : 0 ≤ x' ∧ x' < CHUNK_SIZE ∧ 0 ≤ y' ∧ y' < CHUNK_HEIGHT ∧
            0 ≤ z' ∧ z' < CHUNK_SIZE := by
          unfold CHUNK_SIZE CHUNK_HEIGHT
          omega
        simp [hcond2]
      · have hcond : ¬(x' = x ∧ y' = y ∧ z' = z ∧
            ¬(x < 0 ∨ (16:Int) ≤ x ∨ y < 0 ∨ (80:Int) ≤ y ∨ z < 0 ∨ (16:Int) ≤ z)) := by
          rintro ⟨hx, hy, hz, -⟩
          exact hc ⟨hx, hy, hz⟩
        rw [if_neg (by unfold CHUNK_SIZE CHUNK_HEIGHT; exact hcond)]
        have hne : (getIndex x' y' z').toNat ≠ (getIndex x y z).toNat := by
          intro hEq
          exact hc (getIndex_inj hr.1 hr.2.1 hr.2.2.1 hr.2.2.2.1 hr.2.2.2.2.1
            hr.2.2.2.2.2 hw.1 hw.2.1 hw.2.2.1 hw.2.2.2.1 hw.2.2.2.2.1
            hw.2.2.2.2.2 hEq)
        simp [hne]

/-! ### The chunk store (renderer module) -/

abbrev ChunkKey := Int × Int

abbrev Pos := Int × Int × Int

/-- The renderer's `this.chunks` map, embedded as an insertion-ordered
association list. -/
structure World where
  chunks : List (ChunkKey × ChunkData)

/-- `Map.get` on the chunk map. -/
def findChunk : List (ChunkKey × ChunkData) → ChunkKey → Option ChunkData
  | [], _ => none
  | (k', c) :: rest, k => if k' = k then some c else findChunk rest k

/-- Replacing the value stored under a key (JavaScript mutates the chunk object
in place; the map's key set and order are unchanged). -/
def updateChunk : List (ChunkKey × ChunkData) → ChunkKey → ChunkData → List (ChunkKey × ChunkData)
  | [], _, _ => []
  | (k', c') :: rest, k, c =>
      if k' = k then (k', c) :: rest else (k', c') :: updateChunk rest k c

theorem findChunk_updateChunk (l : List (ChunkKey × ChunkData)) (k : ChunkKey)
    (c : ChunkData) (k' : ChunkKey) :
    findChunk (updateChunk l k c) k' =
      if k' = k ∧ (findChunk l k).isSome then some c else findChunk l k' := by
  induction l with
  | nil => simp [updateChunk, findChunk]
  | cons hd tl ih =>
    obtain ⟨kh, ch⟩ := hd
    by_cases h1 : kh = k
    · subst h1
      by_cases h2 : kh = k'
      · subst h2
        simp [updateChunk, findChunk]
      · have h2' : ¬(k' = kh) := fun h => h2 h.symm
        simp [updateChunk, findChunk, h2, h2']
    · by_cases h2 : kh = k'
      · subst h2
        have h1' : ¬(kh = k ∧ (findChunk ((kh, ch) :: tl) k).isSome = true) :=
          fun h => h1 h.1
        simp only [updateChunk, if_neg h1, findChunk, if_pos rfl, if_neg h1']
        simp [h1]
      · simp only [updateChunk, if_neg h1, findChunk, if_neg h2]
        rw [ih]

/-- `getBlockAt` from the renderer: total voxel read, `AIR` outside the
vertical range, `STONE` when the owning chunk is not loaded.  (The source
floors its arguments; on integer coordinates that is the identity.) -/
def getBlockAt (w : World) (x y z : Int) : BlockType :=
  if y < 0 ∨ CHUNK_HEIGHT ≤ y then B.AIR
  else
    match findChunk w.chunks (chunkCoord x, chunkCoord z) with
    | none => B.STONE
    | some c => getBlock c (wrap16 x) y (wrap16 z)

/-- `getBlockAtLoaded` from the renderer: like `getBlockAt` but `AIR` when the
owning chunk is not loaded. -/
def getBlockAtLoaded (w : World) (x y z : Int) : BlockType :=
  if y < 0 ∨ CHUNK_HEIGHT ≤ y then B.AIR
  else
    match findChunk w.chunks (chunkCoord x, chunkCoord z) with
    | none => B.AIR
    | some c => getBlock c (wrap16 x) y (wrap16 z)

/-- The world after writing block `t` at `(x, y, z)` through the owning chunk,
the write pattern shared by every renderer write site (`setBlockInChunk` on the
chunk found under `(⌊x/16⌋, ⌊z/16⌋)`); a no-op when the chunk is not loaded. -/
def writeBlock (w : World) (x y z : Int) (t : BlockType) : World :=
  match findChunk w.chunks (chunkCoord x, chunkCoord z) with
  | none => w
  | some ch =>
      ⟨updateChunk w.chunks (chunkCoord x, chunkCoord z)
        (setBlock ch (wrap16 x) y (wrap16 z) t)⟩

theorem findChunk_writeBlock_isSome (w : World) (x y z : Int) (t : BlockType) (k : ChunkKey) :
    (findChunk (writeBlock w x y z t).chunks k).isSome = (findChunk w.chunks k).isSome := by
  unfold writeBlock
  cases hf : findChunk w.chunks (chunkCoord x, chunkCoord z) with
  | none => rfl
  | some ch =>
    simp only
    rw [findChunk_updateChunk]
    by_cases hk : k = (chunkCoord x, chunkCoord z)
    · subst hk
      simp [hf]
    · simp [hk]

theorem chunkKey_unique {x z x' z' : Int}
    (hk : (chunkCoord x', chunkCoord z') = (chunkCoord x, chunkCoord z))
    (hx : wrap16 x' = wrap16 x) (hz : wrap16 z' = wrap16 z) : x' = x ∧ z' = z := by
  have h1 := wrap16_add_chunkCoord x
  have h2 := wrap16_add_chunkCoord z
  have h3 := wrap16_add_chunkCoord x'
  have h4 := wrap16_add_chunkCoord z'
  have hkx : chunkCoord x' = chunkCoord x := (Prod.mk.injEq _ _ _ _).mp hk |>.1
  have hkz : chunkCoord z' = chunkCoord z := (Prod.mk.injEq _ _ _ _).mp hk |>.2
  omega

/-- Reading any voxel after `writeBlock`: when the owning chunk is loaded and
`y` is in range the written cell reads back `t`, every other cell is
untouched. -/
theorem getBlockAtLoaded_writeBlock (w : World) (x y z : Int) (t : BlockType) (x' y' z' : Int) :
    getBlockAtLoaded (writeBlock w x y z t) x' y' z' =
      if x' = x ∧ y' = y ∧ z' = z ∧ 0 ≤ y ∧ y < 80 ∧
          (findChunk w.chunks (chunkCoord x, chunkCoord z)).isSome then t
      else getBlockAtLoaded w x' y' z' := by
  unfold writeBlock
  cases hf : findChunk w.chunks (chunkCoord x, chunkCoord z) with
  | none => simp
  | some ch =>
    simp only [Option.isSome_some, and_true]
    unfold getBlockAtLoaded
    by_cases hy' : y' < 0 ∨ CHUNK_HEIGHT ≤ y'
    · rw [if_pos hy', if_pos hy']
      have : ¬(x' = x ∧ y' = y ∧ z' = z ∧ 0 ≤ y ∧ y < 80) := by
        rintro ⟨-, rfl, -, hy0, hy1⟩
        unfold CHUNK_HEIGHT at hy'
        omega
      rw [if_neg this]
    · rw [if_neg hy', if_neg hy']
      rw [findChunk_updateChunk]
      by_cases hk : (chunkCoord x', chunkCoord z') = (chunkCoord x, chunkCoord z)
      · rw [if_pos ⟨hk, by rw [hf]; rfl⟩]
        simp only
        rw [getBlock_setBlock]
        have hwx := wrap16_nonneg x
        have hwx' := wrap16_lt x
        have hwz := wrap16_nonneg z
        have hwz' := wrap16_lt z
        by_cases hc : x' = x ∧ y' = y ∧ z' = z
        · obtain ⟨rfl, rfl, rfl⟩ := hc
          by_cases hyr : 0 ≤ y' ∧ y' < 80
          · rw [if_pos (by unfold CHUNK_SIZE CHUNK_HEIGHT; omega),
              if_pos (by omega)]
          · unfold CHUNK_HEIGHT at hy'
            omega
        · have hwrap : ¬(wrap16 x' = wrap16 x ∧ y' = y ∧ wrap16 z' = wrap16 z) := by
            rintro ⟨h1, h2, h3⟩
            obtain ⟨hx, hz⟩ := chunkKey_unique hk h1 h3
            exact hc ⟨hx, h2, hz⟩
          rw [if_neg (by rintro ⟨h1, h2, h3, -⟩; exact hwrap ⟨h1, h2, h3⟩),
            if_neg (by rintro ⟨h1, h2, h3, -, -⟩; exact hc ⟨h1, h2, h3⟩)]
          rw [hk, hf]
      · rw [if_neg (by rintro ⟨h, -⟩; exact hk h)]
        rw [if_neg (by
          rintro ⟨rfl, rfl, rfl, -⟩
          exact hk rfl)]

/-- Reading through `getBlockAt` (`STONE` default) after `writeBlock`: same
shape as `getBlockAtLoaded_writeBlock`. -/
theorem getBlockAt_writeBlock (w : World) (x y z : Int) (t : BlockType) (x' y' z' : Int) :
    getBlockAt (writeBlock w x y z t) x' y' z' =
      if x' = x ∧ y' = y ∧ z' = z ∧ 0 ≤ y ∧ y < 80 ∧
          (findChunk w.chunks (chunkCoord x, chunkCoord z)).isSome then t
      else getBlockAt w x' y' z' := by
  unfold writeBlock
  cases hf : findChunk w.chunks (chunkCoord x, chunkCoord z) with
  | none => simp
  | some ch =>
    simp only [Option.isSome_some, and_true]
    unfold getBlockAt
    by_cases hy' : y' < 0 ∨ CHUNK_HEIGHT ≤ y'
    · rw [if_pos hy', if_pos hy']
      have : ¬(x' = x ∧ y' = y ∧ z' = z ∧ 0 ≤ y ∧ y < 80) := by
        rintro ⟨-, rfl, -, hy0, hy1⟩
        unfold CHUNK_HEIGHT at hy'
        omega
      rw [if_neg this]
    · rw [if_neg hy', if_neg hy']
      rw [findChunk_updateChunk]
      by_cases hk : (chunkCoord x', chunkCoord z') = (chunkCoord x, chunkCoord z)
      · rw [if_pos ⟨hk, by rw [hf]; rfl⟩]
        simp only
        rw [getBlock_setBlock]
        have hwx := wrap16_nonneg x
        have hwx' := wrap16_lt x
        have hwz := wrap16_nonneg z
        have hwz' := wrap16_lt z
        by_cases hc : x' = x ∧ y' = y ∧ z' = z
        · obtain ⟨rfl, rfl, rfl⟩ := hc
          by_cases hyr : 0 ≤ y' ∧ y' < 80
          · rw [if_pos (by unfold CHUNK_SIZE CHUNK_HEIGHT; omega),
              if_pos (by omega)]
          · unfold CHUNK_HEIGHT at hy'
            omega
        · have hwrap : ¬(wrap16 x' = wrap16 x ∧ y' = y ∧ wrap16 z' = wrap16 z) := by
            rintro ⟨h1, h2, h3⟩
            obtain ⟨hx, hz⟩ := chunkKey_unique hk h1 h3
            exact hc ⟨hx, h2, hz⟩
          rw [if_neg (by rintro ⟨h1, h2, h3, -⟩; exact hwrap ⟨h1, h2, h3⟩),
            if_neg (by rintro ⟨h1, h2, h3, -, -⟩; exact hc ⟨h1, h2, h3⟩)]
          rw [hk, hf]
      · rw [if_neg (by rintro ⟨h, -⟩; exact hk h)]
        rw [if_neg (by
          rintro ⟨rfl, rfl, rfl, -⟩
          exact hk rfl)]

/-! ### Claim theorems: addressing -/

/-- C9: for all integers `x`, `z` and every `y` with `0 ≤ y < 80`, the wrapped
local coordinates `((x % 16) + 16) % 16` and `((z % 16) + 16) % 16` give an
array index `lx + lz*16 + y*256` inside `[0, 16*16*80)`. -/
theorem wrapped_index_in_bounds (x z y : Int) (hy0 : 0 ≤ y) (hy : y < 80) :
    0 ≤ getIndex (wrap16 x) y (wrap16 z) ∧
      getIndex (wrap16 x) y (wrap16 z) < 16 * 16 * 80 := by
  have hx0 := wrap16_nonneg x
  have hx1 := wrap16_lt x
  have hz0 := wrap16_nonneg z
  have hz1 := wrap16_lt z
  unfold getIndex CHUNK_SIZE
  omega

theorem wrapped_index_in_bounds_witness :
    (0 : Int) ≤ 79 ∧ (79 : Int) < 80 ∧
      0 ≤ getIndex (wrap16 (-17)) 79 (wrap16 (-1)) ∧
      getIndex (wrap16 (-17)) 79 (wrap16 (-1)) < 16 * 16 * 80 :=
  ⟨by norm_num, by norm_num,
    (wrapped_index_in_bounds (-17) (-1) 79 (by norm_num) (by norm_num)).1,
    (wrapped_index_in_bounds (-17) (-1) 79 (by norm_num) (by norm_num)).2⟩

/-- C3: `getBlockAt` is a total function (it always produces a `BlockType`);
it returns `AIR` whenever `y < 0` or `y ≥ 80`, and returns `STONE` whenever
`y` is in range but the owning chunk `(⌊x/16⌋, ⌊z/16⌋)` is not loaded. -/
theorem getBlockAt_total (w : World) (x y z : Int) :
    (y < 0 ∨ 80 ≤ y → getBlockAt w x y z = B.AIR) ∧
      (0 ≤ y → y < 80 →
        findChunk w.chunks (chunkCoord x, chunkCoord z) = none →
        getBlockAt w x y z = B.STONE) := by
  constructor
  · intro h
    unfold getBlockAt CHUNK_HEIGHT
    simp [h]
  · intro h0 h1 hnone
    unfold getBlockAt CHUNK_HEIGHT
    have : ¬(y < 0 ∨ (80:Int) ≤ y) := by omega
    simp [this, hnone]

theorem getBlockAt_total_witness :
    getBlockAt ⟨[]⟩ 5 (-1) 7 = B.AIR ∧ getBlockAt ⟨[]⟩ 5 12 7 = B.STONE :=
  ⟨(getBlockAt_total ⟨[]⟩ 5 (-1) 7).1 (Or.inl (by norm_num)),
    (getBlockAt_total ⟨[]⟩ 5 12 7).2 (by norm_num) (by norm_num) rfl⟩

/-! ### Simulation state (renderer + physics engine)

The mutable fields of the renderer and physics engine that the world-edit
protocol touches: the chunk store, the fluid work queue (`waterFlowActive`),
the physics engine's falling-block list, and the debounced signal-refresh flag
(`redstoneDirty`, set by `checkRS` via `requestRedstoneRefresh(false)`).
Mesh rebuilding (`buildChunkMesh`, `rebuildChunkSet`) only drives rendering and
is not part of the simulation state. -/

/-- A falling-block entity of the physics engine (`FallingBlock`); the
`THREE.Mesh` field is rendering-only and omitted. -/
structure FallingBlock where
  px : ℚ
  py : ℚ
  pz : ℚ
  vx : ℚ
  vy : ℚ
  vz : ℚ
  blockType : BlockType
  lifetime : ℚ

structure SimState where
  world : World
  waterFlowActive : List Pos
  fallingBlocks : List FallingBlock
  redstoneDirty : Bool

/-- `Set.add` on the fluid queue (insertion-ordered, duplicate-free). -/
def addPos (l : List Pos) (p : Pos) : List Pos := if p ∈ l then l else l ++ [p]

/-- `Set.add` on a set of chunk keys. -/
def addKey (l : List ChunkKey) (k : ChunkKey) : List ChunkKey :=
  if k ∈ l then l else l ++ [k]

/-- `queueWaterAt` from the renderer. -/
def queueWaterAt (st : SimState) (x y z : Int) : SimState :=
  if y < 0 ∨ CHUNK_HEIGHT ≤ y then st
  else if getBlockAtLoaded st.world x y z ≠ B.WATER then st
  else { st with waterFlowActive := addPos st.waterFlowActive (x, y, z) }

/-- `queueWaterAround` from the renderer (the cell and its six axis
neighbours, in source order). -/
def queueWaterAround (st : SimState) (x y z : Int) : SimState :=
  let st1 := queueWaterAt st x y z
  let st2 := queueWaterAt st1 (x + 1) y z
  let st3 := queueWaterAt st2 (x - 1) y z
  let st4 := queueWaterAt st3 x y (z + 1)
  let st5 := queueWaterAt st4 x y (z - 1)
  let st6 := queueWaterAt st5 x (y + 1) z
  queueWaterAt st6 x (y - 1) z

theorem queueWaterAt_world (st : SimState) (x y z : Int) :
    (queueWaterAt st x y z).world = st.world := by
  unfold queueWaterAt
  split
  · rfl
  split
  · rfl
  rfl

theorem queueWaterAt_falling (st : SimState) (x y z : Int) :
    (queueWaterAt st x y z).fallingBlocks = st.fallingBlocks := by
  unfold queueWaterAt
  split
  · rfl
  split
  · rfl
  rfl

theorem queueWaterAround_world (st : SimState) (x y z : Int) :
    (queueWaterAround st x y z).world = st.world := by
  unfold queueWaterAround
  simp only [queueWaterAt_world]

theorem queueWaterAround_falling (st : SimState) (x y z : Int) :
    (queueWaterAround st x y z).fallingBlocks = st.fallingBlocks := by
  unfold queueWaterAround
  simp only [queueWaterAt_falling]

/-- The list of block types that trigger a redstone refresh (`checkRS`). -/
def RS_COMPONENTS : List BlockType :=
  [B.REDSTONE_DUST, B.REDSTONE_TORCH, B.REDSTONE_BLOCK,
   B.REDSTONE_LAMP, B.LEVER, B.BUTTON, B.REDSTONE_REPEATER, B.COMPARATOR,
   B.COMMAND_BLOCK, B.TNT, B.NOTE_BLOCK]

/-- `checkRS` from the renderer: whether the block type participates in the
signal network (inducing `requestRedstoneRefresh(false)`, i.e. setting the
`redstoneDirty` flag). -/
def checkRS (b : BlockType) : Bool := RS_COMPONENTS.contains b

/-- `setLoadedBlockFast` from the renderer: guarded voxel write returning the
previous block (`none` when `y` is out of range or the chunk is unloaded) and
the accumulated set of chunks to re-mesh. -/
def setLoadedBlockFast (w : World) (x y z : Int) (t : BlockType)
    (rebuild : List ChunkKey) : World × Option BlockType × List ChunkKey :=
  if y < 0 ∨ CHUNK_HEIGHT ≤ y then (w, none, rebuild)
  else
    match findChunk w.chunks (chunkCoord x, chunkCoord z) with
    | none => (w, none, rebuild)
    | some ch =>
        let lx := wrap16 x
        let lz := wrap16 z
        let prev := getBlock ch lx y lz
        if prev = t then (w, some prev, rebuild)
        else
          let w' : World :=
            ⟨updateChunk w.chunks (chunkCoord x, chunkCoord z) (setBlock ch lx y lz t)⟩
          let rb1 := addKey rebuild (chunkCoord x, chunkCoord z)
          let rb2 := if lx = 0 then addKey rb1 (chunkCoord x - 1, chunkCoord z) else rb1
          let rb3 := if lx = CHUNK_SIZE - 1 then addKey rb2 (chunkCoord x + 1, chunkCoord z) else rb2
          let rb4 := if lz = 0 then addKey rb3 (chunkCoord x, chunkCoord z - 1) else rb3
          let rb5 := if lz = CHUNK_SIZE - 1 then addKey rb4 (chunkCoord x, chunkCoord z + 1) else rb4
          (w', some prev, rb5)

theorem setLoadedBlockFast_of_loaded {w : World} {x y z : Int} {ch : ChunkData}
    (hy0 : 0 ≤ y) (hy1 : y < 80)
    (hf : findChunk w.chunks (chunkCoord x, chunkCoord z) = some ch)
    (t : BlockType) (rb : List ChunkKey) :
    (setLoadedBlockFast w x y z t rb).2.1 = some (getBlockAtLoaded w x y z) ∧
      (getBlockAtLoaded w x y z ≠ t →
        (setLoadedBlockFast w x y z t rb).1 = writeBlock w x y z t) ∧
      (getBlockAtLoaded w x y z = t → (setLoadedBlockFast w x y z t rb).1 = w) := by
  have hyr : ¬(y < 0 ∨ CHUNK_HEIGHT ≤ y) := by unfold CHUNK_HEIGHT; omega
  have hread : getBlockAtLoaded w x y z = getBlock ch (wrap16 x) y (wrap16 z) := by
    unfold getBlockAtLoaded
    rw [if_neg hyr, hf]
  unfold setLoadedBlockFast writeBlock
  rw [hf]
  simp only [if_neg hyr]
  by_cases hp : getBlock ch (wrap16 x) y (wrap16 z) = t
  · rw [if_pos hp]
    refine ⟨by rw [hread, hp], fun hne => absurd (hread.trans hp) hne, fun _ => rfl⟩
  · rw [if_neg hp]
    exact ⟨by rw [hread], fun _ => rfl, fun he => absurd (hread.symm.trans he) hp⟩

theorem setLoadedBlockFast_of_unloaded {w : World} {x y z : Int}
    (h : y < 0 ∨ 80 ≤ y ∨ findChunk w.chunks (chunkCoord x, chunkCoord z) = none)
    (t : BlockType) (rb : List ChunkKey) :
    setLoadedBlockFast w x y z t rb = (w, none, rb) := by
  unfold setLoadedBlockFast
  by_cases hy : y < 0 ∨ CHUNK_HEIGHT ≤ y
  · rw [if_pos hy]
  · rw [if_neg hy]
    unfold CHUNK_HEIGHT at hy
    have : findChunk w.chunks (chunkCoord x, chunkCoord z) = none := by
      rcases h with h | h | h
      · omega
      · omega
      · exact h
    rw [this]

/-- `shouldBlockFall` from the physics engine: gravity-affected block types. -/
def shouldBlockFall (t : BlockType) : Bool := [B.SAND, B.GRAVEL, B.ANVIL].contains t

/-- The falling-block entity pushed by `makeFallingBlock` (position centred on
the cell, zero initial velocity, zero lifetime). -/
def makeFallingBlockEnt (x y z : Int) (t : BlockType) : FallingBlock :=
  ⟨(x : ℚ) + 1/2, (y : ℚ) + 1/2, (z : ℚ) + 1/2, 0, 0, 0, t, 0⟩

/-- `setBlockAt` from the renderer, the single mutation funnel.  The source
recursion (`setBlockAt` calls `makeFallingBlock`, which appends the entity and
re-enters `setBlockAt` with `AIR` to clear the source cell) is expressed with
an explicit depth counter; the re-entrant call passes `AIR`, which is never
gravity-affected, so depth 2 realises the source behaviour exactly.  The
`onBlockChanged` emission is an outbound callback and not part of the state. -/
def setBlockAtAux : Nat → SimState → Int → Int → Int → BlockType → SimState
  | 0, st, _, _, _, _ => st
  | fuel + 1, st, x, y, z, t =>
    let r := setLoadedBlockFast st.world x y z t []
    match r.2.1 with
    | none => st
    | some prev =>
      if prev = t then st
      else
        let st1 : SimState :=
          ⟨r.1, st.waterFlowActive, st.fallingBlocks,
            st.redstoneDirty || checkRS prev || checkRS t⟩
        let st2 := if shouldBlockFall t then
            setBlockAtAux fuel
              { st1 with fallingBlocks := st1.fallingBlocks ++ [makeFallingBlockEnt x y z t] }
              x y z B.AIR
          else st1
        let st3 := queueWaterAround st2 x y z
        if t = B.WATER then queueWaterAt st3 x y z else st3

def setBlockAt (st : SimState) (x y z : Int) (t : BlockType) : SimState :=
  setBlockAtAux 2 st x y z t

theorem shouldBlockFall_ne_air {t : BlockType} (h : shouldBlockFall t = true) : t ≠ B.AIR := by
  intro hEq
  subst hEq
  exact absurd h (by decide)

theorem shouldBlockFall_ne_water {t : BlockType} (h : shouldBlockFall t = true) : t ≠ B.WATER := by
  intro hEq
  subst hEq
  exact absurd h (by decide)

/-- C2 (amended): `setBlockAt` spawns a falling-block entity if and only if
the call changes the stored voxel and the written type is gravity-affected —
the source performs no support check.  When it spawns, exactly one entity is
appended and the written cell is immediately reset to `AIR`; when the type is
not gravity-affected the cell simply holds the written type; and a call that
does not change the stored voxel (unloaded chunk, `y` out of range, or an
unchanged value) leaves the whole state untouched. -/
theorem setBlockAt_falling_spec (st : SimState) (x y z : Int) (t : BlockType) :
    (0 ≤ y → y < 80 →
      ∀ ch, findChunk st.world.chunks (chunkCoord x, chunkCoord z) = some ch →
      getBlockAtLoaded st.world x y z ≠ t →
      ((setBlockAt st x y z t).fallingBlocks.length
          = st.fallingBlocks.length + (if shouldBlockFall t then 1 else 0) ∧
        getBlockAtLoaded (setBlockAt st x y z t).world x y z
          = (if shouldBlockFall t then B.AIR else t))) ∧
    ((y < 0 ∨ 80 ≤ y ∨ findChunk st.world.chunks (chunkCoord x, chunkCoord z) = none ∨
        getBlockAtLoaded st.world x y z = t) →
      setBlockAt st x y z t = st) := by
  have hstep : ∀ (f : Nat) (s : SimState) (ty : BlockType),
      setBlockAtAux (f + 1) s x y z ty =
        (match (setLoadedBlockFast s.world x y z ty []).2.1 with
         | none => s
         | some prev =>
           if prev = ty then s
           else
             let st1 : SimState :=
               ⟨(setLoadedBlockFast s.world x y z ty []).1, s.waterFlowActive, s.fallingBlocks,
                 s.redstoneDirty || checkRS prev || checkRS ty⟩
             let st2 := if shouldBlockFall ty then
                 setBlockAtAux f
                   { st1 with fallingBlocks := st1.fallingBlocks ++ [makeFallingBlockEnt x y z ty] }
                   x y z B.AIR
               else st1
             let st3 := queueWaterAround st2 x y z
             if ty = B.WATER then queueWaterAt st3 x y z else st3) :=
    fun _ _ _ => rfl
  have htailf : ∀ (ty : BlockType) (s : SimState),
      (if ty = B.WATER then queueWaterAt (queueWaterAround s x y z) x y z
       else queueWaterAround s x y z).fallingBlocks = s.fallingBlocks := by
    intro ty s
    by_cases hwat : ty = B.WATER
    · rw [if_pos hwat, queueWaterAt_falling, queueWaterAround_falling]
    · rw [if_neg hwat, queueWaterAround_falling]
  have htailw : ∀ (ty : BlockType) (s : SimState),
      (if ty = B.WATER then queueWaterAt (queueWaterAround s x y z) x y z
       else queueWaterAround s x y z).world = s.world := by
    intro ty s
    by_cases hwat : ty = B.WATER
    · rw [if_pos hwat, queueWaterAt_world, queueWaterAround_world]
    · rw [if_neg hwat, queueWaterAround_world]
  constructor
  · intro hy0 hy1 ch hf hne
    have hspec := setLoadedBlockFast_of_loaded hy0 hy1 hf t []
    have hprev : (setLoadedBlockFast st.world x y z t []).2.1
        = some (getBlockAtLoaded st.world x y z) := hspec.1
    have hw1 : (setLoadedBlockFast st.world x y z t []).1 = writeBlock st.world x y z t :=
      hspec.2.1 hne
    have hsome : (findChunk st.world.chunks (chunkCoord x, chunkCoord z)).isSome := by
      rw [hf]; rfl
    have hread1 : getBlockAtLoaded (writeBlock st.world x y z t) x y z = t := by
      rw [getBlockAtLoaded_writeBlock]
      rw [if_pos ⟨rfl, rfl, rfl, hy0, hy1, hsome⟩]
    by_cases hsb : shouldBlockFall t
    · -- gravity-affected write: the entity is pushed, then the source cell is
      -- re-entrantly cleared to AIR
      have hair : B.AIR ≠ t := fun h => shouldBlockFall_ne_air hsb h.symm
      have hsomeMid : (findChunk (writeBlock st.world x y z t).chunks
          (chunkCoord x, chunkCoord z)).isSome := by
        rw [findChunk_writeBlock_isSome]
        exact hsome
      obtain ⟨chMid, hchMid⟩ := Option.isSome_iff_exists.mp hsomeMid
      have houter : setBlockAt st x y z t =
          (if t = B.WATER then
            queueWaterAt (queueWaterAround (setBlockAtAux 1
              ⟨writeBlock st.world x y z t, st.waterFlowActive,
                st.fallingBlocks ++ [makeFallingBlockEnt x y z t],
                st.redstoneDirty || checkRS (getBlockAtLoaded st.world x y z) || checkRS t⟩
              x y z B.AIR) x y z) x y z
          else
            queueWaterAround (setBlockAtAux 1
              ⟨writeBlock st.world x y z t, st.waterFlowActive,
                st.fallingBlocks ++ [makeFallingBlockEnt x y z t],
                st.redstoneDirty || checkRS (getBlockAtLoaded st.world x y z) || checkRS t⟩
              x y z B.AIR) x y z) := by
        show setBlockAtAux (1 + 1) st x y z t = _
        rw [hstep 1 st t, hprev]
        simp only [if_neg hne, hsb, if_true, hw1]
      have hreadMid : getBlockAtLoaded
          ((⟨writeBlock st.world x y z t, st.waterFlowActive,
            st.fallingBlocks ++ [makeFallingBlockEnt x y z t],
            st.redstoneDirty || checkRS (getBlockAtLoaded st.world x y z) || checkRS t⟩ :
              SimState)).world x y z = t := hread1
      have hspecMid := setLoadedBlockFast_of_loaded (w := writeBlock st.world x y z t)
        hy0 hy1 hchMid B.AIR []
      have hneMid : getBlockAtLoaded (writeBlock st.world x y z t) x y z ≠ B.AIR := by
        rw [hread1]; exact fun h => hair h.symm
      have hinner : setBlockAtAux 1
          (⟨writeBlock st.world x y z t, st.waterFlowActive,
            st.fallingBlocks ++ [makeFallingBlockEnt x y z t],
            st.redstoneDirty || checkRS (getBlockAtLoaded st.world x y z) || checkRS t⟩ :
              SimState)
          x y z B.AIR =
          queueWaterAround
            ⟨writeBlock (writeBlock st.world x y z t) x y z B.AIR, st.waterFlowActive,
              st.fallingBlocks ++ [makeFallingBlockEnt x y z t],
              (st.redstoneDirty || checkRS (getBlockAtLoaded st.world x y z) || checkRS t)
                || checkRS (getBlockAtLoaded (writeBlock st.world x y z t) x y z)
                || checkRS B.AIR⟩
            x y z := by
        show setBlockAtAux (0 + 1) _ x y z B.AIR = _
        rw [hstep 0 _ B.AIR]
        rw [hspecMid.1]
        simp only [if_neg hneMid, hspecMid.2.1 hneMid]
        have h1 : shouldBlockFall B.AIR = false := by decide
        have h2 : ¬(B.AIR = B.WATER) := by decide
        simp only [h1, Bool.false_eq_true, if_false, h2]
      rw [houter, hinner]
      constructor
      · rw [htailf, queueWaterAround_falling]
        simp [hsb]
      · rw [htailw, queueWaterAround_world]
        show getBlockAtLoaded (writeBlock (writeBlock st.world x y z t) x y z B.AIR) x y z = _
        rw [getBlockAtLoaded_writeBlock]
        rw [if_pos ⟨rfl, rfl, rfl, hy0, hy1, hsomeMid⟩]
        simp [hsb]
    · -- not gravity-affected: the written value stays, no entity appears
      have houter : setBlockAt st x y z t =
          (if t = B.WATER then
            queueWaterAt (queueWaterAround
              (⟨writeBlock st.world x y z t, st.waterFlowActive, st.fallingBlocks,
                st.redstoneDirty || checkRS (getBlockAtLoaded st.world x y z) || checkRS t⟩ :
                  SimState) x y z) x y z
          else
            queueWaterAround
              (⟨writeBlock st.world x y z t, st.waterFlowActive, st.fallingBlocks,
                st.redstoneDirty || checkRS (getBlockAtLoaded st.world x y z) || checkRS t⟩ :
                  SimState) x y z) := by
        show setBlockAtAux (1 + 1) st x y z t = _
        rw [hstep 1 st t, hprev]
        simp only [if_neg hne, hsb, Bool.false_eq_true, if_false, hw1]
      rw [houter]
      constructor
      · rw [htailf]
        simp [hsb]
      · rw [htailw]
        show getBlockAtLoaded (writeBlock st.world x y z t) x y z = _
        rw [hread1]
        simp [hsb]
  · intro h
    show setBlockAtAux 2 st x y z t = st
    rw [show (2 : Nat) = 1 + 1 from rfl, hstep 1 st t]
    rcases h with h | h | h | h
    · rw [setLoadedBlockFast_of_unloaded (Or.inl h)]
    · rw [setLoadedBlockFast_of_unloaded (Or.inr (Or.inl h))]
    · rw [setLoadedBlockFast_of_unloaded (Or.inr (Or.inr h))]
    · by_cases hy : y < 0 ∨ 80 ≤ y
      · rcases hy with hy | hy
        · rw [setLoadedBlockFast_of_unloaded (Or.inl hy)]
        · rw [setLoadedBlockFast_of_unloaded (Or.inr (Or.inl hy))]
      · push_neg at hy
        cases hfind : findChunk st.world.chunks (chunkCoord x, chunkCoord z) with
        | none => rw [setLoadedBlockFast_of_unloaded (Or.inr (Or.inr hfind))]
        | some ch =>
          have hspec := setLoadedBlockFast_of_loaded hy.1 hy.2 hfind t []
          rw [hspec.1, h]
          simp

/-- Concrete world for the C2 scenario: one loaded chunk at `(0,0)` holding a
single `STONE` block at local `(0,0,0)` (array index `0`), `AIR` elsewhere. -/
def c2Chunk : ChunkData := ⟨fun i => if i = 0 then B.STONE else B.AIR, 0, 0⟩

def c2State : SimState := ⟨⟨[((0, 0), c2Chunk)]⟩, [], [], false⟩

/-- C2 counterexample to the claim as stated: placing `SAND` at `(0,1,0)`
directly on top of a `STONE` block — a supported position — still spawns a
falling-block entity, because `setBlockAt` consults only `shouldBlockFall`
and never checks support. -/
theorem setBlockAt_spawns_despite_support :
    getBlockAtLoaded c2State.world 0 0 0 = B.STONE ∧
      isCollidable B.STONE = true ∧
      (setBlockAt c2State 0 1 0 B.SAND).fallingBlocks.length = 1 ∧
      getBlockAtLoaded (setBlockAt c2State 0 1 0 B.SAND).world 0 1 0 = B.AIR := by
  refine ⟨by decide, by decide, ?_, ?_⟩ <;> decide

theorem setBlockAt_falling_spec_witness :
    (0 : Int) ≤ 1 ∧ (1 : Int) < 80 ∧
      (setBlockAt c2State 0 1 0 B.SAND).fallingBlocks.length
          = c2State.fallingBlocks.length + (if shouldBlockFall B.SAND then 1 else 0) ∧
      getBlockAtLoaded (setBlockAt c2State 0 1 0 B.SAND).world 0 1 0
          = (if shouldBlockFall B.SAND then B.AIR else B.SAND) :=
  ⟨by norm_num, by norm_num,
    ((setBlockAt_falling_spec c2State 0 1 0 B.SAND).1 (by norm_num) (by norm_num)
      c2Chunk (by rfl) (by decide)).1,
    ((setBlockAt_falling_spec c2State 0 1 0 B.SAND).1 (by norm_num) (by norm_num)
      c2Chunk (by rfl) (by decide)).2⟩

/-! ### Remote multiplayer edits (`applyMultiplayerBlockEvents`) -/

/-- A remote block-edit event `{x, y, z, type}` (the `authorId` tag only
suppresses rebroadcast and has no effect on application). -/
structure MultiplayerBlockEvent where
  x : Int
  y : Int
  z : Int
  type : BlockType

/-- One iteration of the `applyMultiplayerBlockEvents` loop: skip when the
owning chunk is unloaded or `y` is out of range, otherwise write the event's
type, flag a redstone refresh for redstone-relevant previous/next types, and
queue fluid reevaluation.  The per-call mesh-rebuild set only drives rendering
and is omitted. -/
def applyEvent (st : SimState) (ev : MultiplayerBlockEvent) : SimState :=
  match findChunk st.world.chunks (chunkCoord ev.x, chunkCoord ev.z) with
  | none => st
  | some chunk =>
    if ev.y < 0 ∨ CHUNK_HEIGHT ≤ ev.y then st
    else
      let prev := getBlock chunk (wrap16 ev.x) ev.y (wrap16 ev.z)
      let st1 : SimState :=
        ⟨writeBlock st.world ev.x ev.y ev.z ev.type, st.waterFlowActive, st.fallingBlocks,
          st.redstoneDirty || checkRS prev || checkRS ev.type⟩
      let st2 := queueWaterAround st1 ev.x ev.y ev.z
      if ev.type = B.WATER then queueWaterAt st2 ev.x ev.y ev.z else st2

/-- `applyMultiplayerBlockEvents` from the renderer (also reached through
`applyWorldBlockEdits`). -/
def applyMultiplayerBlockEvents (st : SimState) (events : List MultiplayerBlockEvent) : SimState :=
  events.foldl applyEvent st

theorem applyEvent_read (st : SimState) (ev : MultiplayerBlockEvent) (x' y' z' : Int) :
    getBlockAtLoaded (applyEvent st ev).world x' y' z' =
      if x' = ev.x ∧ y' = ev.y ∧ z' = ev.z ∧ 0 ≤ ev.y ∧ ev.y < 80 ∧
          (findChunk st.world.chunks (chunkCoord ev.x, chunkCoord ev.z)).isSome then ev.type
      else getBlockAtLoaded st.world x' y' z' := by
  unfold applyEvent
  cases hf : findChunk st.world.chunks (chunkCoord ev.x, chunkCoord ev.z) with
  | none => simp
  | some chunk =>
    simp only [Option.isSome_some, and_true]
    by_cases hy : ev.y < 0 ∨ CHUNK_HEIGHT ≤ ev.y
    · rw [if_pos hy]
      have hcond : ¬(x' = ev.x ∧ y' = ev.y ∧ z' = ev.z ∧ 0 ≤ ev.y ∧ ev.y < 80) := by
        unfold CHUNK_HEIGHT at hy
        rintro ⟨-, -, -, h1, h2⟩
        omega
      rw [if_neg hcond]
    · rw [if_neg hy]
      have hy' : 0 ≤ ev.y ∧ ev.y < 80 := by unfold CHUNK_HEIGHT at hy; omega
      by_cases hwat : ev.type = B.WATER
      · rw [if_pos hwat, queueWaterAt_world, queueWaterAround_world]
        show getBlockAtLoaded (writeBlock st.world ev.x ev.y ev.z ev.type) x' y' z' = _
        rw [getBlockAtLoaded_writeBlock]
        simp only [hf, Option.isSome_some, and_true]
      · rw [if_neg hwat, queueWaterAround_world]
        show getBlockAtLoaded (writeBlock st.world ev.x ev.y ev.z ev.type) x' y' z' = _
        rw [getBlockAtLoaded_writeBlock]
        simp only [hf, Option.isSome_some, and_true]

theorem applyEvent_presence (st : SimState) (ev : MultiplayerBlockEvent) (k : ChunkKey) :
    (findChunk (applyEvent st ev).world.chunks k).isSome
      = (findChunk st.world.chunks k).isSome := by
  unfold applyEvent
  cases hf : findChunk st.world.chunks (chunkCoord ev.x, chunkCoord ev.z) with
  | none => rfl
  | some chunk =>
    dsimp only
    by_cases hy : ev.y < 0 ∨ CHUNK_HEIGHT ≤ ev.y
    · rw [if_pos hy]
    · rw [if_neg hy]
      by_cases hwat : ev.type = B.WATER
      · rw [if_pos hwat, queueWaterAt_world, queueWaterAround_world]
        show (findChunk (writeBlock st.world ev.x ev.y ev.z ev.type).chunks k).isSome = _
        rw [findChunk_writeBlock_isSome]
      · rw [if_neg hwat, queueWaterAround_world]
        show (findChunk (writeBlock st.world ev.x ev.y ev.z ev.type).chunks k).isSome = _
        rw [findChunk_writeBlock_isSome]

/-- C7: applying the same remote block-edit event twice through
`applyMultiplayerBlockEvents` is idempotent — after the second application
every voxel of every loaded chunk reads exactly as it did after the first
application. -/
theorem applyMultiplayerBlockEvents_idempotent (st : SimState) (ev : MultiplayerBlockEvent)
    (x' y' z' : Int) :
    getBlockAtLoaded (applyMultiplayerBlockEvents
        (applyMultiplayerBlockEvents st [ev]) [ev]).world x' y' z'
      = getBlockAtLoaded (applyMultiplayerBlockEvents st [ev]).world x' y' z' := by
  show getBlockAtLoaded (applyEvent (applyEvent st ev) ev).world x' y' z'
      = getBlockAtLoaded (applyEvent st ev).world x' y' z'
  rw [applyEvent_read (applyEvent st ev) ev x' y' z']
  rw [applyEvent_presence]
  by_cases hcond : x' = ev.x ∧ y' = ev.y ∧ z' = ev.z ∧ 0 ≤ ev.y ∧ ev.y < 80 ∧
      (findChunk st.world.chunks (chunkCoord ev.x, chunkCoord ev.z)).isSome
  · rw [if_pos hcond]
    obtain ⟨hx, hyy, hz, h0, h1, hsome⟩ := hcond
    subst hx; subst hyy; subst hz
    rw [applyEvent_read st ev]
    rw [if_pos ⟨rfl, rfl, rfl, h0, h1, hsome⟩]
  · rw [if_neg hcond]

/-! ### Tree placement (`worldgen.ts`) and the `Math.random()` dependence -/

/-- The `Math.random()` stream: an infinite sequence of values in `[0,1)`
together with the index of the next value to be drawn. -/
structure RngState where
  stream : Nat → ℚ
  idx : Nat

def rngNext (r : RngState) : ℚ × RngState := (r.stream r.idx, ⟨r.stream, r.idx + 1⟩)

/-- The inclusive integer range `a..b` of a JavaScript `for` loop. -/
def intRange (a b : Int) : List Int := (List.range (b - a + 1).toNat).map (fun i => a + i)

/-- The leaf write of `placeTree`: bounds-check the cell and write `LEAVES`
only into `AIR`. -/
def placeTreeLeafWrite (tx tz y dx dz : Int) (a : ChunkData × RngState) : ChunkData × RngState :=
  let lx := tx + dx
  let lz := tz + dz
  if 0 ≤ lx ∧ lx < CHUNK_SIZE ∧ 0 ≤ lz ∧ lz < CHUNK_SIZE ∧ y < CHUNK_HEIGHT then
    if getBlock a.1 lx y lz = B.AIR then (setBlock a.1 lx y lz B.LEAVES, a.2) else a
  else a

/-- The body of `placeTree`'s inner `dz` loop: skip the trunk column below the
crown, prune corner positions by a `Math.random() > 0.5` draw (consumed only
when the position is a corner, matching the short-circuit evaluation), else
write the leaf. -/
def placeTreeLeafCell (tx tz leafEnd y radius dx dz : Int)
    (acc : ChunkData × RngState) : ChunkData × RngState :=
  if dx = 0 ∧ dz = 0 ∧ y < leafEnd then acc
  else if |dx| = radius ∧ |dz| = radius then
    let q := rngNext acc.2
    if q.1 > 1/2 then (acc.1, q.2) else placeTreeLeafWrite tx tz y dx dz (acc.1, q.2)
  else placeTreeLeafWrite tx tz y dx dz acc

/-- One `y` level of `placeTree`'s leaf loops (radius 2 below the crown top,
1 at the top). -/
def placeTreeLeafRow (tx tz leafEnd y : Int) (acc : ChunkData × RngState) :
    ChunkData × RngState :=
  let radius : Int := if y < leafEnd - 1 then 2 else 1
  (intRange (-radius) radius).foldl (fun acc2 dx =>
    (intRange (-radius) radius).foldl
      (fun acc3 dz => placeTreeLeafCell tx tz leafEnd y radius dx dz acc3) acc2) acc

/-- `placeTree` from `worldgen.ts`.  Each `Math.random()` call consumes one
value from the stream: one for the trunk height
(`4 + Math.floor(Math.random() * 3)`) and one per corner leaf position. -/
def placeTree (c : ChunkData) (tx ty tz : Int) (r : RngState) : ChunkData × RngState :=
  let d := rngNext r
  let trunkHeight : Int := 4 + ⌊d.1 * 3⌋
  let c1 := (intRange 0 (trunkHeight - 1)).foldl
    (fun acc y => setBlock acc tx (ty + y) tz B.WOOD) c
  let leafStart := ty + trunkHeight - 2
  let leafEnd := ty + trunkHeight + 2
  (intRange leafStart leafEnd).foldl
    (fun acc y => placeTreeLeafRow tx tz leafEnd y acc) (c1, d.2)

def emptyChunk : ChunkData := ⟨fun _ => B.AIR, 0, 0⟩

def rngZero : RngState := ⟨fun _ => 0, 0⟩

def rngHigh : RngState := ⟨fun _ => 9/10, 0⟩

theorem foldl_preserve_read {α : Type} (f : (ChunkData × RngState) → α → (ChunkData × RngState))
    (h : ∀ acc a, getBlock (f acc a).1 5 15 5 = getBlock acc.1 5 15 5) :
    ∀ (l : List α) (acc), getBlock (List.foldl f acc l).1 5 15 5 = getBlock acc.1 5 15 5 := by
  intro l
  induction l with
  | nil => intro acc; rfl
  | cons hd tl ih =>
    intro acc
    rw [List.foldl_cons, ih, h]

theorem placeTreeLeafWrite_read (y dx dz : Int) (a : ChunkData × RngState)
    (hne : ¬(dx = 0 ∧ y = 15 ∧ dz = 0)) :
    getBlock (placeTreeLeafWrite 5 5 y dx dz a).1 5 15 5 = getBlock a.1 5 15 5 := by
  unfold placeTreeLeafWrite
  dsimp only
  split
  · split
    · show getBlock (setBlock a.1 (5 + dx) y (5 + dz) B.LEAVES) 5 15 5 = _
      rw [getBlock_setBlock]
      rw [if_neg (by rintro ⟨h1, h2, h3, -⟩; exact hne ⟨by omega, h2.symm, by omega⟩)]
    · rfl
  · rfl

/-- The cell `(5, 15, 5)` — the trunk column below the crown — is never
changed by the leaf loops of a tree planted at `tx = tz = 5` whose crown ends
at `leafEnd ≥ 16`: the trunk column is skipped there, and every other write
lands on different coordinates. -/
theorem placeTreeLeafCell_read (leafEnd y radius dx dz : Int) (hle : 16 ≤ leafEnd)
    (acc : ChunkData × RngState) :
    getBlock (placeTreeLeafCell 5 5 leafEnd y radius dx dz acc).1 5 15 5
      = getBlock acc.1 5 15 5 := by
  unfold placeTreeLeafCell
  by_cases hskip : dx = 0 ∧ dz = 0 ∧ y < leafEnd
  · rw [if_pos hskip]
  · rw [if_neg hskip]
    have hne : ¬(dx = 0 ∧ y = 15 ∧ dz = 0) := by
      rintro ⟨h1, h2, h3⟩
      exact hskip ⟨h1, h3, by omega⟩
    dsimp only
    split
    · split
      · rfl
      · exact placeTreeLeafWrite_read y dx dz _ hne
    · exact placeTreeLeafWrite_read y dx dz _ hne

theorem placeTreeLeafRow_read (leafEnd y : Int) (hle : 16 ≤ leafEnd)
    (acc : ChunkData × RngState) :
    getBlock (placeTreeLeafRow 5 5 leafEnd y acc).1 5 15 5 = getBlock acc.1 5 15 5 := by
  unfold placeTreeLeafRow
  exact foldl_preserve_read _
    (fun acc2 dx => foldl_preserve_read _
      (fun acc3 dz => placeTreeLeafCell_read leafEnd y _ dx dz hle acc3) _ acc2) _ acc

/-- C1: chunk generation is not a function of the seed alone — `placeTree`
(called from `generateChunk` during tree placement) draws its trunk height and
leaf-corner pruning from the unseeded global `Math.random()`, so two runs of
the same generation with different ambient `Math.random()` values produce
different block arrays: at cell `(5,15,5)` the run drawing `0` leaves `AIR`
(trunk height 4) where the run drawing `0.9` places `WOOD` (trunk height 6).
This contradicts the documented determinism of `generateChunk`. -/
theorem placeTree_depends_on_global_rng :
    getBlock (placeTree emptyChunk 5 10 5 rngZero).1 5 15 5 = B.AIR ∧
      getBlock (placeTree emptyChunk 5 10 5 rngHigh).1 5 15 5 = B.WOOD ∧
      getBlock (placeTree emptyChunk 5 10 5 rngZero).1 5 15 5 ≠
        getBlock (placeTree emptyChunk 5 10 5 rngHigh).1 5 15 5 := by
  have hz : getBlock (placeTree emptyChunk 5 10 5 rngZero).1 5 15 5 = B.AIR := by
    have hfl : (4 + ⌊(rngNext rngZero).1 * 3⌋ : Int) = 4 := by
      show (4 + ⌊(0 : ℚ) * 3⌋ : Int) = 4
      norm_num
    unfold placeTree
    dsimp only
    rw [hfl]
    rw [foldl_preserve_read _ (fun acc y => placeTreeLeafRow_read (10 + 4 + 2) y (by norm_num) acc)]
    decide
  have hh : getBlock (placeTree emptyChunk 5 10 5 rngHigh).1 5 15 5 = B.WOOD := by
    have hfl : (4 + ⌊(rngNext rngHigh).1 * 3⌋ : Int) = 6 := by
      show (4 + ⌊(9/10 : ℚ) * 3⌋ : Int) = 6
      norm_num
    unfold placeTree
    dsimp only
    rw [hfl]
    rw [foldl_preserve_read _ (fun acc y => placeTreeLeafRow_read (10 + 6 + 2) y (by norm_num) acc)]
    decide
  exact ⟨hz, hh, by rw [hz, hh]; decide⟩

/-! ### Signal propagation (`updateRedstone`)

`updateRedstone` recomputes the power map from scratch: phase 1 scans every
loaded chunk for sources (power blocks and torches always emit 15, levers and
buttons emit 15 while their persisted activation flag is set), phase 2 relaxes
breadth-first with the 5000-iteration cap.  The later phases (lamps, edge
triggers, button timers) read the power map but never write it, so the power
readings of a refresh are exactly the result of phases 1–2, embedded here as
`updateRedstonePower`. -/

/-- The `redstonePower` map: `"x,y,z"`-keyed, embedded as an insertion-ordered
association list; absence means power 0. -/
abbrev RSMap := List (Pos × Nat)

def rsGet : RSMap → Pos → Nat
  | [], _ => 0
  | (k', v) :: rest, k => if k' = k then v else rsGet rest k

def rsSet : RSMap → Pos → Nat → RSMap
  | [], k, v => [(k, v)]
  | (k', v') :: rest, k, v => if k' = k then (k, v) :: rest else (k', v') :: rsSet rest k v

def rsDel : RSMap → Pos → RSMap
  | [], _ => []
  | (k', v') :: rest, k => if k' = k then rest else (k', v') :: rsDel rest k

/-- `setRSPower`: positive powers are stored, zero deletes the entry. -/
def setRSPower (m : RSMap) (k : Pos) (p : Nat) : RSMap :=
  if p > 0 then rsSet m k p else rsDel m k

/-- The per-cell body of the phase-1 source scan: power blocks and torches are
unconditional level-15 sources; levers and buttons are sources only while
their persisted activation flag is set (and then re-assert the flag). -/
def scanCell (oldActive : List Pos) (chunk : ChunkData) (w0 z0 : Int) (x y z : Nat)
    (acc : List (Pos × Nat) × List Pos) : List (Pos × Nat) × List Pos :=
  let b := getBlock chunk (x : Int) (y : Int) (z : Int)
  let wx := w0 + (x : Int)
  let wz := z0 + (z : Int)
  if b = B.REDSTONE_BLOCK ∨ b = B.REDSTONE_TORCH then
    (acc.1 ++ [((wx, (y : Int), wz), 15)], acc.2)
  else if b = B.LEVER ∨ b = B.BUTTON then
    if (wx, (y : Int), wz) ∈ oldActive then
      (acc.1 ++ [((wx, (y : Int), wz), 15)], acc.2 ++ [(wx, (y : Int), wz)])
    else acc
  else acc

/-- The per-chunk loops `for x / for y / for z` of the phase-1 scan. -/
def scanChunk (oldActive : List Pos) (chunk : ChunkData)
    (acc : List (Pos × Nat) × List Pos) : List (Pos × Nat) × List Pos :=
  let w0 := chunk.cx * CHUNK_SIZE
  let z0 := chunk.cz * CHUNK_SIZE
  (List.range 16).foldl (fun acc1 x =>
    (List.range 80).foldl (fun acc2 y =>
      (List.range 16).foldl (fun acc3 z =>
        scanCell oldActive chunk w0 z0 x y z acc3) acc2) acc1) acc

/-- Phase 1 of `updateRedstone`: scan all loaded chunks in map order. -/
def scanSources (w : World) (oldActive : List Pos) : List (Pos × Nat) × List Pos :=
  w.chunks.foldl (fun acc entry => scanChunk oldActive entry.2 acc) ([], [])

/-- The six axis directions, in source order. -/
def bfsDirs : List (Int × Int × Int) :=
  [(1, 0, 0), (-1, 0, 0), (0, 0, 1), (0, 0, -1), (0, 1, 0), (0, -1, 0)]

/-- One neighbour step of the BFS relaxation: dust takes `cp - 1` when that
strictly exceeds its stored power; a repeater re-emits a full 15
unconditionally (when 15 exceeds its stored power). -/
def bfsVisit (w : World) (cur : Pos) (cp : Nat) (st : RSMap × List (Pos × Nat))
    (d : Int × Int × Int) : RSMap × List (Pos × Nat) :=
  let nx := cur.1 + d.1
  let ny := cur.2.1 + d.2.1
  let nz := cur.2.2 + d.2.2
  let nb := getBlockAtLoaded w nx ny nz
  let st1 :=
    if nb = B.REDSTONE_DUST then
      let np := cp - 1
      if np > rsGet st.1 (nx, ny, nz) then
        (setRSPower st.1 (nx, ny, nz) np, st.2 ++ [((nx, ny, nz), np)])
      else st
    else st
  if nb = B.REDSTONE_REPEATER ∧ 15 > rsGet st1.1 (nx, ny, nz) then
    (setRSPower st1.1 (nx, ny, nz) 15, st1.2 ++ [((nx, ny, nz), 15)])
  else st1

/-- Phase 2 of `updateRedstone`: the `while (queue.length > 0 && iter < 5000)`
loop.  The fuel argument is `5000 - iter`; the returned counter is the number
of loop iterations actually executed. -/
def bfsAux (w : World) : Nat → List (Pos × Nat) → RSMap → RSMap × Nat
  | 0, _, pm => (pm, 0)
  | _ + 1, [], pm => (pm, 0)
  | f + 1, cur :: rest, pm =>
    let cp := rsGet pm cur.1
    if cp ≤ 1 then
      let r := bfsAux w f rest pm
      (r.1, r.2 + 1)
    else
      let st := bfsDirs.foldl (bfsVisit w cur.1 cp) (pm, [])
      let r := bfsAux w f (rest ++ st.2) st.1
      (r.1, r.2 + 1)

/-- Phases 1–2 of `updateRedstone`: the power map after one signal refresh,
together with the number of BFS iterations used. -/
def updateRedstonePower (w : World) (oldActive : List Pos) : RSMap × Nat :=
  let s := scanSources w oldActive
  let pm0 := s.1.foldl (fun m e => setRSPower m e.1 e.2) []
  bfsAux w 5000 s.1 pm0

theorem bfsAux_iterations_le (w : World) (f : Nat) :
    ∀ (q : List (Pos × Nat)) (pm : RSMap), (bfsAux w f q pm).2 ≤ f := by
  induction f with
  | zero => intro q pm; exact Nat.le_refl 0
  | succ f ih =>
    intro q pm
    cases q with
    | nil => exact Nat.zero_le _
    | cons cur rest =>
      show (bfsAux w (f + 1) (cur :: rest) pm).2 ≤ f + 1
      unfold bfsAux
      dsimp only
      split
      · exact Nat.succ_le_succ (ih _ _)
      · exact Nat.succ_le_succ (ih _ _)

/-- C8: a signal refresh always terminates — `updateRedstonePower` is a total
function, and its breadth-first relaxation loop executes at most 5000
iterations regardless of the world and the power network shape. -/
theorem updateRedstone_bfs_capped (w : World) (oldActive : List Pos) :
    (updateRedstonePower w oldActive).2 ≤ 5000 ∧
      ∀ (f : Nat) (q : List (Pos × Nat)) (pm : RSMap), (bfsAux w f q pm).2 ≤ f :=
  ⟨bfsAux_iterations_le w 5000 _ _, fun f q pm => bfsAux_iterations_le w f q pm⟩

theorem rsGet_rsSet (m : RSMap) (k : Pos) (v : Nat) (k' : Pos) :
    rsGet (rsSet m k v) k' = if k = k' then v else rsGet m k' := by
  induction m with
  | nil =>
    by_cases h : k = k'
    · simp [rsSet, rsGet, h]
    · simp [rsSet, rsGet, h]
  | cons hd tl ih =>
    obtain ⟨kh, vh⟩ := hd
    by_cases h1 : kh = k
    · subst h1
      by_cases h2 : kh = k'
      · subst h2
        simp [rsSet, rsGet]
      · simp [rsSet, rsGet, h2, fun h => h2 h]
    · simp only [rsSet, if_neg h1, rsGet]
      by_cases h2 : kh = k'
      · subst h2
        have : ¬(k = kh) := fun h => h1 h.symm
        simp [rsGet, this]
      · simp [rsGet, h2, ih]

theorem rsGet_setRSPower_pos (m : RSMap) (k : Pos) (p : Nat) (hp : 0 < p) (k' : Pos) :
    rsGet (setRSPower m k p) k' = if k = k' then p else rsGet m k' := by
  unfold setRSPower
  rw [if_pos hp, rsGet_rsSet]

theorem bfsVisit_monotone (w : World) (cur : Pos) (cp : Nat) (st : RSMap × List (Pos × Nat))
    (d : Int × Int × Int) (p : Pos) :
    rsGet st.1 p ≤ rsGet (bfsVisit w cur cp st d).1 p := by
  unfold bfsVisit
  dsimp only
  set n : Pos := (cur.1 + d.1, cur.2.1 + d.2.1, cur.2.2 + d.2.2) with hn
  have step : ∀ (m : RSMap) (v : Nat), rsGet m n < v →
      rsGet m p ≤ rsGet (setRSPower m n v) p := by
    intro m v hv
    rw [rsGet_setRSPower_pos m n v (by omega)]
    by_cases h : n = p
    · subst h
      rw [if_pos rfl]
      omega
    · rw [if_neg h]
  by_cases h1 : getBlockAtLoaded w n.1 n.2.1 n.2.2 = B.REDSTONE_DUST
  · rw [if_pos h1]
    by_cases h2 : cp - 1 > rsGet st.1 n
    · rw [if_pos h2]
      by_cases h3 : getBlockAtLoaded w n.1 n.2.1 n.2.2 = B.REDSTONE_REPEATER ∧
          15 > rsGet (setRSPower st.1 n (cp - 1)) n
      · rw [if_pos h3]
        exact le_trans (step st.1 (cp - 1) h2) (step _ 15 h3.2)
      · rw [if_neg h3]
        exact step st.1 (cp - 1) h2
    · rw [if_neg h2]
      by_cases h3 : getBlockAtLoaded w n.1 n.2.1 n.2.2 = B.REDSTONE_REPEATER ∧
          15 > rsGet st.1 n
      · rw [if_pos h3]
        exact step st.1 15 h3.2
      · rw [if_neg h3]
  · rw [if_neg h1]
    by_cases h3 : getBlockAtLoaded w n.1 n.2.1 n.2.2 = B.REDSTONE_REPEATER ∧
        15 > rsGet st.1 n
    · rw [if_pos h3]
      exact step st.1 15 h3.2
    · rw [if_neg h3]

theorem bfsDirs_fold_monotone (w : World) (cur : Pos) (cp : Nat) (p : Pos) :
    ∀ (l : List (Int × Int × Int)) (st : RSMap × List (Pos × Nat)),
      rsGet st.1 p ≤ rsGet (l.foldl (bfsVisit w cur cp) st).1 p := by
  intro l
  induction l with
  | nil => intro st; exact le_refl _
  | cons hd tl ih =>
    intro st
    rw [List.foldl_cons]
    exact le_trans (bfsVisit_monotone w cur cp st hd p) (ih _)

/-- Across the whole BFS relaxation a cell's stored power never decreases: a
power entry is only ever overwritten by a strictly greater value. -/
theorem bfsAux_monotone (w : World) (f : Nat) :
    ∀ (q : List (Pos × Nat)) (pm : RSMap) (p : Pos),
      rsGet pm p ≤ rsGet (bfsAux w f q pm).1 p := by
  induction f with
  | zero => intro q pm p; exact le_refl _
  | succ f ih =>
    intro q pm p
    cases q with
    | nil => exact le_refl _
    | cons cur rest =>
      unfold bfsAux
      dsimp only
      split
      · exact ih _ _ _
      · exact le_trans (bfsDirs_fold_monotone w cur.1 _ p bfsDirs (pm, []))
          (ih _ _ _)

/-- The straight-line scenario: chunk `(0,0)` holds a `REDSTONE_BLOCK` at
world `(0,5,0)` (array index `5*256 = 1280`) and `REDSTONE_DUST` at
`(1..15, 5, 0)` (indices 1281–1295); chunk `(1,0)` holds the 16th dust cell at
world `(16,5,0)` (its local index 1280).  All other cells are `AIR`. -/
def lineChunkA : ChunkData :=
  ⟨fun i => if i = 1280 then B.REDSTONE_BLOCK
    else if 1281 ≤ i ∧ i ≤ 1295 then B.REDSTONE_DUST else B.AIR, 0, 0⟩

def lineChunkB : ChunkData :=
  ⟨fun i => if i = 1280 then B.REDSTONE_DUST else B.AIR, 1, 0⟩

def lineWorld : World := ⟨[((0, 0), lineChunkA), ((1, 0), lineChunkB)]⟩

theorem foldl_skip {α β : Type} (f : β → α → β) (l : List α)
    (h : ∀ (b : β) (a : α), a ∈ l → f b a = b) : ∀ b : β, l.foldl f b = b := by
  induction l with
  | nil => intro b; rfl
  | cons hd tl ih =>
    intro b
    rw [List.foldl_cons, h b hd (List.mem_cons_self hd tl)]
    exact ih (fun b' a ha => h b' a (List.mem_cons_of_mem hd ha)) b

theorem scanCell_skip (oa : List Pos) (ch : ChunkData) (w0 z0 : Int) (x y z : Nat)
    (h1 : ¬(getBlock ch (x : Int) (y : Int) (z : Int) = B.REDSTONE_BLOCK ∨
      getBlock ch (x : Int) (y : Int) (z : Int) = B.REDSTONE_TORCH))
    (h2 : ¬(getBlock ch (x : Int) (y : Int) (z : Int) = B.LEVER ∨
      getBlock ch (x : Int) (y : Int) (z : Int) = B.BUTTON))
    (acc : List (Pos × Nat) × List Pos) :
    scanCell oa ch w0 z0 x y z acc = acc := by
  unfold scanCell
  dsimp only
  rw [if_neg h1, if_neg h2]

theorem lineChunkA_block (x y z : Nat) (hx : x < 16) (hy : y < 80) (hz : z < 16) :
    getBlock lineChunkA (x : Int) (y : Int) (z : Int) =
      if x = 0 ∧ y = 5 ∧ z = 0 then B.REDSTONE_BLOCK
      else if 1 ≤ x ∧ x ≤ 15 ∧ y = 5 ∧ z = 0 then B.REDSTONE_DUST
      else B.AIR := by
  unfold getBlock
  rw [if_neg (by unfold CHUNK_SIZE CHUNK_HEIGHT; omega)]
  have hidx : (getIndex (x : Int) (y : Int) (z : Int)).toNat = x + z * 16 + y * 256 := by
    unfold getIndex CHUNK_SIZE
    omega
  rw [hidx]
  rw [show ∀ i : Nat, lineChunkA.blocks i = (if i = 1280 then B.REDSTONE_BLOCK
    else if 1281 ≤ i ∧ i ≤ 1295 then B.REDSTONE_DUST else B.AIR) from fun i => rfl]
  by_cases hc : x = 0 ∧ y = 5 ∧ z = 0
  · obtain ⟨rfl, rfl, rfl⟩ := hc
    norm_num
  · rw [if_neg hc,
      if_neg (show ¬(x + z * 16 + y * 256 = 1280) from by omega)]
    by_cases hd : 1 ≤ x ∧ x ≤ 15 ∧ y = 5 ∧ z = 0
    · rw [if_pos hd,
        if_pos (show 1281 ≤ x + z * 16 + y * 256 ∧ x + z * 16 + y * 256 ≤ 1295 from by omega)]
    · rw [if_neg hd,
        if_neg (show ¬(1281 ≤ x + z * 16 + y * 256 ∧ x + z * 16 + y * 256 ≤ 1295) from by omega)]

theorem lineChunkB_block (x y z : Nat) (hx : x < 16) (hy : y < 80) (hz : z < 16) :
    getBlock lineChunkB (x : Int) (y : Int) (z : Int) =
      if x = 0 ∧ y = 5 ∧ z = 0 then B.REDSTONE_DUST else B.AIR := by
  unfold getBlock
  rw [if_neg (by unfold CHUNK_SIZE CHUNK_HEIGHT; omega)]
  have hidx : (getIndex (x : Int) (y : Int) (z : Int)).toNat = x + z * 16 + y * 256 := by
    unfold getIndex CHUNK_SIZE
    omega
  rw [hidx]
  rw [show ∀ i : Nat, lineChunkB.blocks i
    = (if i = 1280 then B.REDSTONE_DUST else B.AIR) from fun i => rfl]
  by_cases hc : x = 0 ∧ y = 5 ∧ z = 0
  · obtain ⟨rfl, rfl, rfl⟩ := hc
    norm_num
  · rw [if_neg hc,
      if_neg (show ¬(x + z * 16 + y * 256 = 1280) from by omega)]

theorem scanCell_A_skip (w0 z0 : Int) (x y z : Nat) (hx : x < 16) (hy : y < 80)
    (hz : z < 16) (hne : ¬(x = 0 ∧ y = 5 ∧ z = 0))
    (acc : List (Pos × Nat) × List Pos) :
    scanCell [] lineChunkA w0 z0 x y z acc = acc := by
  have hb := lineChunkA_block x y z hx hy hz
  rw [if_neg hne] at hb
  apply scanCell_skip <;> rw [hb] <;> split <;> decide

theorem scanCell_B_skip (w0 z0 : Int) (x y z : Nat) (hx : x < 16) (hy : y < 80)
    (hz : z < 16) (acc : List (Pos × Nat) × List Pos) :
    scanCell [] lineChunkB w0 z0 x y z acc = acc := by
  have hb := lineChunkB_block x y z hx hy hz
  apply scanCell_skip <;> rw [hb] <;> split <;> decide

theorem scanChunk_B (acc : List (Pos × Nat) × List Pos) :
    scanChunk [] lineChunkB acc = acc := by
  unfold scanChunk
  dsimp only
  apply foldl_skip
  intro b1 x hxmem
  apply foldl_skip
  intro b2 y hymem
  apply foldl_skip
  intro b3 z hzmem
  exact scanCell_B_skip _ _ x y z (List.mem_range.mp hxmem) (List.mem_range.mp hymem)
    (List.mem_range.mp hzmem) b3

theorem foldl_list_congr {α β : Type} (f : β → α → β) {l1 l2 : List α} (h : l1 = l2)
    (b : β) : l1.foldl f b = l2.foldl f b := by rw [h]

theorem zfold_A_skip (w0 z0 : Int) (x y : Nat) (hx : x < 16) (hy : y < 80)
    (hne : ¬(x = 0 ∧ y = 5)) (acc : List (Pos × Nat) × List Pos) :
    (List.range 16).foldl (fun acc3 z => scanCell [] lineChunkA w0 z0 x y z acc3) acc = acc :=
  foldl_skip _ _ (fun b z hz =>
    scanCell_A_skip w0 z0 x y z hx hy (List.mem_range.mp hz)
      (by rintro ⟨h1, h2, -⟩; exact hne ⟨h1, h2⟩) b) acc

theorem zfold_A_at05 (w0 z0 : Int) (acc : List (Pos × Nat) × List Pos) :
    (List.range 16).foldl (fun acc3 z => scanCell [] lineChunkA w0 z0 0 5 z acc3) acc
      = (acc.1 ++ [((w0, (5 : Int), z0), 15)], acc.2) := by
  rw [foldl_list_congr _
    (show List.range 16 = 0 :: List.map (fun i => 1 + i) (List.range 15) from by decide)]
  rw [List.foldl_cons]
  have hhead : scanCell [] lineChunkA w0 z0 0 5 0 acc
      = (acc.1 ++ [((w0, (5 : Int), z0), 15)], acc.2) := by
    unfold scanCell
    dsimp only
    rw [show getBlock lineChunkA ((0 : Nat) : Int) ((5 : Nat) : Int) ((0 : Nat) : Int)
        = B.REDSTONE_BLOCK from by
      rw [lineChunkA_block 0 5 0 (by norm_num) (by norm_num) (by norm_num)]
      norm_num]
    rw [if_pos (Or.inl rfl)]
    norm_num
  rw [hhead]
  exact foldl_skip _ _ (fun b z hz => by
    obtain ⟨i, hi, rfl⟩ := List.mem_map.mp hz
    exact scanCell_A_skip w0 z0 0 5 (1 + i) (by norm_num) (by norm_num)
      (by have := List.mem_range.mp hi; omega) (by omega) b) _

theorem yfold_A_at0 (w0 z0 : Int) (acc : List (Pos × Nat) × List Pos) :
    (List.range 80).foldl (fun acc2 y =>
        (List.range 16).foldl (fun acc3 z => scanCell [] lineChunkA w0 z0 0 y z acc3) acc2) acc
      = (acc.1 ++ [((w0, (5 : Int), z0), 15)], acc.2) := by
  rw [foldl_list_congr _
    (show List.range 80 = (List.range 5 ++ [5]) ++ List.map (fun i => 6 + i) (List.range 74)
      from by decide)]
  rw [List.foldl_append, List.foldl_append]
  rw [foldl_skip _ (List.range 5) (fun b y hy =>
    zfold_A_skip w0 z0 0 y (by norm_num) (by have := List.mem_range.mp hy; omega)
      (by have := List.mem_range.mp hy; omega) b)]
  rw [List.foldl_cons, List.foldl_nil]
  rw [zfold_A_at05]
  exact foldl_skip _ _ (fun b y hy => by
    obtain ⟨i, hi, rfl⟩ := List.mem_map.mp hy
    exact zfold_A_skip w0 z0 0 (6 + i) (by norm_num)
      (by have := List.mem_range.mp hi; omega) (by omega) b) _

theorem scanChunk_A (acc : List (Pos × Nat) × List Pos) :
    scanChunk [] lineChunkA acc
      = (acc.1 ++ [(((0 : Int), (5 : Int), (0 : Int)), 15)], acc.2) := by
  unfold scanChunk
  dsimp only
  rw [foldl_list_congr _
    (show List.range 16 = 0 :: List.map (fun i => 1 + i) (List.range 15) from by decide)]
  rw [List.foldl_cons]
  rw [yfold_A_at0]
  rw [foldl_skip _ _ (fun b x hx => by
    obtain ⟨i, hi, rfl⟩ := List.mem_map.mp hx
    exact foldl_skip _ _ (fun b2 y hy =>
      zfold_A_skip _ _ (1 + i) y (by have := List.mem_range.mp hi; omega)
        (List.mem_range.mp hy) (by omega) b2) b)]
  norm_num [lineChunkA, CHUNK_SIZE]

theorem scanSources_lineWorld :
    scanSources lineWorld [] = ([(((0 : Int), (5 : Int), (0 : Int)), 15)], []) := by
  unfold scanSources
  rw [show lineWorld.chunks = [((0, 0), lineChunkA), ((1, 0), lineChunkB)] from rfl]
  rw [List.foldl_cons, List.foldl_cons, List.foldl_nil]
  dsimp only
  rw [scanChunk_A, scanChunk_B]
  rfl

set_option maxRecDepth 4000 in
/-- C4: after one signal refresh over a straight dust line fed by a level-15
source, power decays by exactly one per hop — the line (source at position 0,
dust at 1..15) reads `[15, 14, ..., 1, 0]`, the 16th dust cell (position 16)
reads 0 — and throughout the relaxation a cell's power is only overwritten by
a strictly greater value (stored powers never decrease). -/
theorem redstone_line_decay :
    ((List.range 16).map
        (fun k => rsGet (updateRedstonePower lineWorld []).1 ((k : Int), 5, 0))
      = [15, 14, 13, 12, 11, 10, 9, 8, 7, 6, 5, 4, 3, 2, 1, 0]) ∧
      rsGet (updateRedstonePower lineWorld []).1 (16, 5, 0) = 0 ∧
      (∀ (w : World) (f : Nat) (q : List (Pos × Nat)) (m : RSMap) (p : Pos),
        rsGet m p ≤ rsGet (bfsAux w f q m).1 p) := by
  have hupd : updateRedstonePower lineWorld [] =
      bfsAux lineWorld 5000 [(((0 : Int), (5 : Int), (0 : Int)), 15)]
        (setRSPower [] ((0 : Int), (5 : Int), (0 : Int)) 15) := by
    unfold updateRedstonePower
    rw [scanSources_lineWorld]
    rfl
  rw [hupd]
  exact ⟨by decide, by decide, fun w f q m p => bfsAux_monotone w f q m p⟩

/-! ### Fluid flow (`updateWaterFlow`)

`updateWaterFlow` snapshots and clears `waterFlowActive`, then processes the
pending coordinates in order under a device-tier budget (64 low-end, 140
otherwise): entries whose cell no longer holds `WATER` (or whose key fails to
parse — impossible for keys built by `waterKey`) are dropped; otherwise
gravity is tried first (convert the `AIR` cell below and requeue it), else up
to two lateral spreads into supported `AIR` neighbours, requeuing the source
whenever anything changed.  The per-tick mesh-rebuild set is threaded through
`setLoadedBlockFast` as in the source. -/

/-- The loop state of one `updateWaterFlow` tick. -/
structure WaterLoop where
  world : World
  active : List Pos
  rebuild : List ChunkKey
  processed : Nat

/-- Reading a voxel of a world at a packed coordinate (statement helper). -/
def readW (w : World) (c : Pos) : BlockType := getBlockAtLoaded w c.1 c.2.1 c.2.2

/-- One direction of the lateral-spread loop (`dirs = [[1,0],[-1,0],[0,1],[0,-1]]`):
skipped once two spreads happened; spreads only into an `AIR` neighbour whose
cell below is not `AIR` (below is treated as `BEDROCK` at `y = 0`). -/
def waterSpreadDir (x y z : Int) (acc : WaterLoop × Nat × Bool) (d : Int × Int) :
    WaterLoop × Nat × Bool :=
  if acc.2.1 ≥ 2 then acc
  else
    let nx := x + d.1
    let nz := z + d.2
    if getBlockAtLoaded acc.1.world nx y nz ≠ B.AIR then acc
    else
      let below := if y > 0 then getBlockAtLoaded acc.1.world nx (y - 1) nz else B.BEDROCK
      if below = B.AIR then acc
      else
        let r := setLoadedBlockFast acc.1.world nx y nz B.WATER acc.1.rebuild
        if r.2.1 = some B.AIR then
          (⟨r.1, addPos acc.1.active (nx, y, nz), r.2.2, acc.1.processed⟩, acc.2.1 + 1, true)
        else
          (⟨r.1, acc.1.active, r.2.2, acc.1.processed⟩, acc.2.1, acc.2.2)

/-- The body of `updateWaterFlow`'s loop for one dequeued coordinate. -/
def waterCellStep (low : Bool) (s : WaterLoop) (cell : Pos) : WaterLoop :=
  let maxUpdates := if low then 64 else 140
  if s.processed < maxUpdates then
    let x := cell.1
    let y := cell.2.1
    let z := cell.2.2
    if getBlockAtLoaded s.world x y z ≠ B.WATER then s
    else
      let s1 : WaterLoop := ⟨s.world, s.active, s.rebuild, s.processed + 1⟩
      if y > 0 ∧ getBlockAtLoaded s1.world x (y - 1) z = B.AIR then
        let r := setLoadedBlockFast s1.world x (y - 1) z B.WATER s1.rebuild
        if r.2.1 = some B.AIR then
          let s2 : WaterLoop := ⟨r.1, addPos s1.active (x, y - 1, z), r.2.2, s1.processed⟩
          { s2 with active := addPos s2.active (x, y, z) }
        else ⟨r.1, s1.active, r.2.2, s1.processed⟩
      else
        let res := [((1 : Int), (0 : Int)), (-1, 0), (0, 1), (0, -1)].foldl
          (waterSpreadDir x y z) (s1, 0, false)
        if res.2.2 then { res.1 with active := addPos res.1.active (x, y, z) } else res.1
  else s

/-- `updateWaterFlow` from the renderer: snapshot and clear the active set,
process the pending entries under the budget, adopt the resulting world and
the freshly accumulated active set (the rebuild set only drives re-meshing). -/
def updateWaterFlow (low : Bool) (st : SimState) : SimState :=
  if st.waterFlowActive = [] then st
  else
    let pending := st.waterFlowActive
    let res := pending.foldl (waterCellStep low) ⟨st.world, [], [], 0⟩
    { st with world := res.world, waterFlowActive := res.active }

theorem mem_addPos_self (l : List Pos) (p : Pos) : p ∈ addPos l p := by
  unfold addPos
  split
  · assumption
  · exact List.mem_append_right l (List.mem_singleton.mpr rfl)

theorem addPos_subset (l : List Pos) (p q : Pos) (h : q ∈ l) : q ∈ addPos l p := by
  unfold addPos
  split
  · exact h
  · exact List.mem_append_left _ h

theorem setLoadedBlockFast_none_world {w : World} {x y z : Int} {t : BlockType}
    {rb : List ChunkKey} (h : (setLoadedBlockFast w x y z t rb).2.1 = none) :
    (setLoadedBlockFast w x y z t rb).1 = w := by
  by_cases hy : y < 0 ∨ 80 ≤ y
  · rcases hy with hy | hy
    · rw [setLoadedBlockFast_of_unloaded (Or.inl hy)]
    · rw [setLoadedBlockFast_of_unloaded (Or.inr (Or.inl hy))]
  · push_neg at hy
    cases hf : findChunk w.chunks (chunkCoord x, chunkCoord z) with
    | none => rw [setLoadedBlockFast_of_unloaded (Or.inr (Or.inr hf))]
    | some ch =>
      have hspec := setLoadedBlockFast_of_loaded hy.1 hy.2 hf t rb
      rw [hspec.1] at h
      cases h

theorem setLoadedBlockFast_some_air {w : World} {x y z : Int} {rb : List ChunkKey}
    (h : (setLoadedBlockFast w x y z B.WATER rb).2.1 = some B.AIR) :
    getBlockAtLoaded w x y z = B.AIR ∧
      (setLoadedBlockFast w x y z B.WATER rb).1 = writeBlock w x y z B.WATER ∧
      0 ≤ y ∧ y < 80 ∧ (findChunk w.chunks (chunkCoord x, chunkCoord z)).isSome := by
  by_cases hy : y < 0 ∨ 80 ≤ y
  · rcases hy with hy | hy
    · rw [setLoadedBlockFast_of_unloaded (Or.inl hy)] at h; cases h
    · rw [setLoadedBlockFast_of_unloaded (Or.inr (Or.inl hy))] at h; cases h
  · push_neg at hy
    cases hf : findChunk w.chunks (chunkCoord x, chunkCoord z) with
    | none =>
      rw [setLoadedBlockFast_of_unloaded (Or.inr (Or.inr hf))] at h
      cases h
    | some ch =>
      have hspec := setLoadedBlockFast_of_loaded hy.1 hy.2 hf B.WATER rb
      rw [hspec.1] at h
      have hair : getBlockAtLoaded w x y z = B.AIR := Option.some.inj h
      exact ⟨hair, hspec.2.1 (by rw [hair]; decide), hy.1, hy.2, by rfl⟩

theorem getBlockAtLoaded_ne_air {w : World} {x y z : Int}
    (h : getBlockAtLoaded w x y z ≠ B.AIR) :
    0 ≤ y ∧ y < 80 ∧ (findChunk w.chunks (chunkCoord x, chunkCoord z)).isSome := by
  unfold getBlockAtLoaded at h
  by_cases hy : y < 0 ∨ CHUNK_HEIGHT ≤ y
  · rw [if_pos hy] at h
    exact absurd rfl h
  · rw [if_neg hy] at h
    unfold CHUNK_HEIGHT at hy
    cases hf : findChunk w.chunks (chunkCoord x, chunkCoord z) with
    | none =>
      rw [hf] at h
      exact absurd rfl h
    | some ch => exact ⟨by omega, by omega, by rfl⟩

/-- The invariant of the lateral-spread fold, relative to the world `w0` and
active set `a0` entering the fold: at most two spreads, every changed cell is
one of the four lateral neighbours and went from `AIR` to `WATER` over a
non-`AIR` cell below, changed cells are requeued, changes imply the changed
flag, and the active set only grows. -/
def SpreadInv (w0 : World) (a0 : List Pos) (x y z : Int)
    (acc : WaterLoop × Nat × Bool) : Prop :=
  acc.2.1 ≤ 2 ∧
  (∃ cs : List Pos, cs.length = acc.2.1 ∧
    ∀ c : Pos, readW acc.1.world c ≠ readW w0 c → c ∈ cs) ∧
  (∀ c : Pos, readW acc.1.world c ≠ readW w0 c →
    ((∃ d : Int × Int, (d = (1, 0) ∨ d = (-1, 0) ∨ d = (0, 1) ∨ d = (0, -1)) ∧
        c = (x + d.1, y, z + d.2)) ∧
      readW w0 c = B.AIR ∧ readW acc.1.world c = B.WATER ∧
      (0 < y → getBlockAtLoaded w0 c.1 (y - 1) c.2.2 ≠ B.AIR) ∧
      c ∈ acc.1.active)) ∧
  ((∃ c : Pos, readW acc.1.world c ≠ readW w0 c) → acc.2.2 = true) ∧
  (∀ p : Pos, p ∈ a0 → p ∈ acc.1.active)

theorem waterSpreadDir_inv (w0 : World) (a0 : List Pos) (x y z : Int)
    (acc : WaterLoop × Nat × Bool) (d : Int × Int)
    (hd : d = (1, 0) ∨ d = (-1, 0) ∨ d = (0, 1) ∨ d = (0, -1))
    (hI : SpreadInv w0 a0 x y z acc) :
    SpreadInv w0 a0 x y z (waterSpreadDir x y z acc d) := by
  unfold waterSpreadDir
  by_cases h2 : acc.2.1 ≥ 2
  · rw [if_pos h2]
    exact hI
  · rw [if_neg h2]
    dsimp only
    by_cases h3 : getBlockAtLoaded acc.1.world (x + d.1) y (z + d.2) ≠ B.AIR
    · rw [if_pos h3]
      exact hI
    · rw [if_neg h3]
      push_neg at h3
      by_cases h4 : (if y > 0 then getBlockAtLoaded acc.1.world (x + d.1) (y - 1) (z + d.2)
          else B.BEDROCK) = B.AIR
      · rw [if_pos h4]
        exact hI
      · rw [if_neg h4]
        by_cases h5 : (setLoadedBlockFast acc.1.world (x + d.1) y (z + d.2) B.WATER
            acc.1.rebuild).2.1 = some B.AIR
        · rw [if_pos h5]
          obtain ⟨hairw, hwrt, hy0, hy1, hsome⟩ := setLoadedBlockFast_some_air h5
          obtain ⟨hG, ⟨cs, hcsl, hcs⟩, hB, hD, hH⟩ := hI
          have hnch : readW acc.1.world (x + d.1, y, z + d.2) = B.AIR := h3
          have hnun : readW w0 (x + d.1, y, z + d.2) = B.AIR := by
            by_cases hch : readW acc.1.world (x + d.1, y, z + d.2)
                = readW w0 (x + d.1, y, z + d.2)
            · rw [← hch]
              exact hnch
            · have := (hB _ hch).2.2.1
              rw [hnch] at this
              exact absurd this (by decide)
          have hread : ∀ c : Pos,
              readW (setLoadedBlockFast acc.1.world (x + d.1) y (z + d.2) B.WATER
                acc.1.rebuild).1 c
                = if c = (x + d.1, y, z + d.2) then B.WATER else readW acc.1.world c := by
            intro c
            rw [hwrt]
            unfold readW
            rw [getBlockAtLoaded_writeBlock]
            by_cases hc : c = (x + d.1, y, z + d.2)
            · subst hc
              rw [if_pos ⟨rfl, rfl, rfl, hy0, hy1, hsome⟩, if_pos rfl]
            · rw [if_neg (by
                rintro ⟨he1, he2, he3, -⟩
                exact hc (by
                  obtain ⟨c1, c2, c3⟩ := c
                  simp only at he1 he2 he3
                  subst he1; subst he2; subst he3
                  rfl)), if_neg hc]
          refine ⟨show acc.2.1 + 1 ≤ 2 from by omega,
            ⟨(x + d.1, y, z + d.2) :: cs, show cs.length + 1 = acc.2.1 + 1 from by
              omega, ?_⟩, ?_, ?_, ?_⟩
          · intro c hch
            rw [hread] at hch
            by_cases hc : c = (x + d.1, y, z + d.2)
            · exact hc ▸ List.mem_cons_self _ _
            · rw [if_neg hc] at hch
              exact List.mem_cons_of_mem _ (hcs c hch)
          · intro c hch
            rw [hread] at hch ⊢
            by_cases hc : c = (x + d.1, y, z + d.2)
            · subst hc
              refine ⟨⟨d, hd, rfl⟩, hnun, by rw [if_pos rfl], ?_, ?_⟩
              · intro hy
                rw [if_pos hy] at h4
                -- the below cell is at height y - 1 and is therefore unchanged
                have hbel : readW acc.1.world (x + d.1, y - 1, z + d.2)
                    = readW w0 (x + d.1, y - 1, z + d.2) := by
                  by_cases hbc : readW acc.1.world (x + d.1, y - 1, z + d.2)
                      = readW w0 (x + d.1, y - 1, z + d.2)
                  · exact hbc
                  · obtain ⟨⟨d', -, he⟩, -⟩ := hB _ hbc
                    have := congrArg (fun p : Pos => p.2.1) he
                    simp only at this
                    omega
                show getBlockAtLoaded w0 (x + d.1) (y - 1) (z + d.2) ≠ B.AIR
                have : readW w0 (x + d.1, y - 1, z + d.2) ≠ B.AIR := by
                  rw [← hbel]
                  exact h4
                exact this
              · exact mem_addPos_self _ _
            · rw [if_neg hc] at hch
              obtain ⟨hn, hw0, hwat, hsup, hmem⟩ := hB c hch
              exact ⟨hn, hw0, by rw [if_neg hc]; exact hwat, hsup,
                addPos_subset _ _ _ hmem⟩
          · intro _
            rfl
          · intro p hp
            exact addPos_subset _ _ _ (hH p hp)
        · rw [if_neg h5]
          have hnone : (setLoadedBlockFast acc.1.world (x + d.1) y (z + d.2) B.WATER
              acc.1.rebuild).2.1 = none := by
            by_cases hy : y < 0 ∨ 80 ≤ y
            · rcases hy with hy | hy
              · rw [setLoadedBlockFast_of_unloaded (Or.inl hy)]
              · rw [setLoadedBlockFast_of_unloaded (Or.inr (Or.inl hy))]
            · push_neg at hy
              cases hf : findChunk acc.1.world.chunks
                  (chunkCoord (x + d.1), chunkCoord (z + d.2)) with
              | none => rw [setLoadedBlockFast_of_unloaded (Or.inr (Or.inr hf))]
              | some ch =>
                have hspec := setLoadedBlockFast_of_loaded hy.1 hy.2 hf B.WATER acc.1.rebuild
                rw [hspec.1, h3] at h5
                exact absurd rfl h5
          have hw := setLoadedBlockFast_none_world hnone
          obtain ⟨hG, ⟨cs, hcsl, hcs⟩, hB, hD, hH⟩ := hI
          exact ⟨hG, ⟨cs, hcsl, fun c hch => hcs c (by rw [← hw]; exact hch)⟩,
            fun c hch => by
              have := hB c (by rw [← hw]; exact hch)
              exact ⟨this.1, this.2.1, by rw [hw]; exact this.2.2.1, this.2.2.2.1,
                this.2.2.2.2⟩,
            fun ⟨c, hch⟩ => hD ⟨c, by rw [← hw]; exact hch⟩, hH⟩

theorem waterSpread_fold_inv (w0 : World) (a0 : List Pos) (x y z : Int) :
    ∀ (l : List (Int × Int)),
      (∀ d ∈ l, d = (1, 0) ∨ d = (-1, 0) ∨ d = (0, 1) ∨ d = (0, -1)) →
      ∀ (acc : WaterLoop × Nat × Bool), SpreadInv w0 a0 x y z acc →
      SpreadInv w0 a0 x y z (l.foldl (waterSpreadDir x y z) acc) := by
  intro l
  induction l with
  | nil => intro _ acc hI; exact hI
  | cons hd tl ih =>
    intro hl acc hI
    rw [List.foldl_cons]
    exact ih (fun d hdm => hl d (List.mem_cons_of_mem hd hdm)) _
      (waterSpreadDir_inv w0 a0 x y z acc hd (hl hd (List.mem_cons_self hd tl)) hI)

/-- C5: in a fluid tick, for every dequeued active cell processed under the
budget: a stale entry whose cell no longer holds `WATER` changes nothing; if
the cell holds `WATER` and the cell directly below is `AIR`, the cell below is
converted to `WATER` and both it and the source are requeued (gravity first);
otherwise at most two cells change, each a lateral `AIR` neighbour whose own
cell below is not `AIR` at dequeue time, each converted to `WATER` and
requeued, and the source is requeued whenever any spread happened. -/
theorem updateWaterFlow_cell_spec (low : Bool) (s : WaterLoop) (x y z : Int)
    (hbudget : s.processed < (if low then 64 else 140)) :
    (getBlockAtLoaded s.world x y z ≠ B.WATER → waterCellStep low s (x, y, z) = s) ∧
    (getBlockAtLoaded s.world x y z = B.WATER →
      0 < y → getBlockAtLoaded s.world x (y - 1) z = B.AIR →
      (readW (waterCellStep low s (x, y, z)).world (x, y - 1, z) = B.WATER ∧
        (∀ c : Pos, c ≠ (x, y - 1, z) →
          readW (waterCellStep low s (x, y, z)).world c = readW s.world c) ∧
        (x, y - 1, z) ∈ (waterCellStep low s (x, y, z)).active ∧
        (x, y, z) ∈ (waterCellStep low s (x, y, z)).active)) ∧
    (getBlockAtLoaded s.world x y z = B.WATER →
      ¬(0 < y ∧ getBlockAtLoaded s.world x (y - 1) z = B.AIR) →
      ((∃ c1 c2 : Pos, ∀ c : Pos,
          readW (waterCellStep low s (x, y, z)).world c ≠ readW s.world c →
          c = c1 ∨ c = c2) ∧
        (∀ c : Pos,
          readW (waterCellStep low s (x, y, z)).world c ≠ readW s.world c →
          ((c = (x + 1, y, z) ∨ c = (x - 1, y, z) ∨ c = (x, y, z + 1) ∨
              c = (x, y, z - 1)) ∧
            readW s.world c = B.AIR ∧
            readW (waterCellStep low s (x, y, z)).world c = B.WATER ∧
            (0 < y → getBlockAtLoaded s.world c.1 (y - 1) c.2.2 ≠ B.AIR) ∧
            c ∈ (waterCellStep low s (x, y, z)).active)) ∧
        ((∃ c : Pos,
            readW (waterCellStep low s (x, y, z)).world c ≠ readW s.world c) →
          (x, y, z) ∈ (waterCellStep low s (x, y, z)).active))) := by
  refine ⟨?_, ?_, ?_⟩
  · intro hne
    unfold waterCellStep
    dsimp only
    rw [if_pos hbudget, if_pos hne]
  · intro hw hy hbelow
    have hWne : getBlockAtLoaded s.world x y z ≠ B.AIR := by rw [hw]; decide
    obtain ⟨hy0, hy1, hsome⟩ := getBlockAtLoaded_ne_air hWne
    obtain ⟨ch, hf⟩ := Option.isSome_iff_exists.mp hsome
    have hspec := setLoadedBlockFast_of_loaded
      (show (0 : Int) ≤ y - 1 from by omega) (show y - 1 < (80 : Int) from by omega)
      hf B.WATER s.rebuild
    have hr21 : (setLoadedBlockFast s.world x (y - 1) z B.WATER s.rebuild).2.1
        = some B.AIR := by rw [hspec.1, hbelow]
    have hr1 : (setLoadedBlockFast s.world x (y - 1) z B.WATER s.rebuild).1
        = writeBlock s.world x (y - 1) z B.WATER :=
      hspec.2.1 (by rw [hbelow]; decide)
    unfold waterCellStep
    dsimp only
    rw [if_pos hbudget, if_neg (fun hc => hc hw),
      if_pos (show y > 0 ∧ getBlockAtLoaded s.world x (y - 1) z = B.AIR
        from ⟨hy, hbelow⟩),
      if_pos hr21, hr1]
    refine ⟨?_, ?_, ?_, ?_⟩
    · show readW (writeBlock s.world x (y - 1) z B.WATER) (x, y - 1, z) = B.WATER
      unfold readW
      rw [getBlockAtLoaded_writeBlock,
        if_pos ⟨rfl, rfl, rfl, by omega, by omega, hsome⟩]
    · intro c hc
      show readW (writeBlock s.world x (y - 1) z B.WATER) c = readW s.world c
      unfold readW
      rw [getBlockAtLoaded_writeBlock, if_neg (fun hcond => hc (by
        obtain ⟨h1, h2, h3, -⟩ := hcond
        obtain ⟨c1, c2, c3⟩ := c
        simp only at h1 h2 h3
        subst h1; subst h2; subst h3
        rfl))]
    · exact addPos_subset _ _ _ (mem_addPos_self _ _)
    · exact mem_addPos_self _ _
  · intro hw hng
    have hconv : ∀ c : Pos,
        (∃ d : Int × Int, (d = (1, 0) ∨ d = (-1, 0) ∨ d = (0, 1) ∨ d = (0, -1)) ∧
          c = (x + d.1, y, z + d.2)) →
        (c = (x + 1, y, z) ∨ c = (x - 1, y, z) ∨ c = (x, y, z + 1) ∨
          c = (x, y, z - 1)) := by
      rintro c ⟨d, hd, rfl⟩
      rcases hd with rfl | rfl | rfl | rfl
      · exact Or.inl (by norm_num)
      · exact Or.inr (Or.inl (by norm_num [Int.sub_eq_add_neg]))
      · exact Or.inr (Or.inr (Or.inl (by norm_num)))
      · exact Or.inr (Or.inr (Or.inr (by norm_num [Int.sub_eq_add_neg])))
    have hInit : SpreadInv s.world s.active x y z
        (⟨s.world, s.active, s.rebuild, s.processed + 1⟩, 0, false) :=
      ⟨Nat.zero_le 2, ⟨[], rfl, fun c hch => absurd rfl hch⟩,
        fun c hch => absurd rfl hch, fun ⟨_, hch⟩ => absurd rfl hch,
        fun _ hp => hp⟩
    unfold waterCellStep
    dsimp only
    rw [if_pos hbudget, if_neg (fun hc => hc hw),
      if_neg (show ¬(y > 0 ∧ getBlockAtLoaded s.world x (y - 1) z = B.AIR)
        from hng)]
    set res := [((1 : Int), (0 : Int)), (-1, 0), (0, 1), (0, -1)].foldl
      (waterSpreadDir x y z) (⟨s.world, s.active, s.rebuild, s.processed + 1⟩, 0, false)
      with hres
    have hInv : SpreadInv s.world s.active x y z res := by
      rw [hres]
      exact waterSpread_fold_inv s.world s.active x y z _ (by decide) _ hInit
    obtain ⟨hG, ⟨cs, hcsl, hcs⟩, hB, hD, hH⟩ := hInv
    by_cases hflag : res.2.2 = true
    · rw [if_pos hflag]
      dsimp only
      refine ⟨?_, ?_, ?_⟩
      · rcases cs with - | ⟨a, - | ⟨b, - | ⟨c', tl⟩⟩⟩
        · exact ⟨(x, y, z), (x, y, z),
            fun c hch => absurd (hcs c hch) (List.not_mem_nil c)⟩
        · refine ⟨a, a, fun c hch => ?_⟩
          have := hcs c hch
          rw [List.mem_singleton] at this
          exact Or.inl this
        · refine ⟨a, b, fun c hch => ?_⟩
          have := hcs c hch
          rcases List.mem_cons.mp this with h | h
          · exact Or.inl h
          · exact Or.inr (List.mem_singleton.mp h)
        · exfalso
          simp only [List.length_cons] at hcsl
          omega
      · intro c hch
        obtain ⟨hn, hair, hwat, hsup, hmem⟩ := hB c hch
        exact ⟨hconv c hn, hair, hwat, hsup, addPos_subset _ _ _ hmem⟩
      · intro _
        exact mem_addPos_self _ _
    · rw [if_neg hflag]
      refine ⟨?_, ?_, ?_⟩
      · rcases cs with - | ⟨a, - | ⟨b, - | ⟨c', tl⟩⟩⟩
        · exact ⟨(x, y, z), (x, y, z),
            fun c hch => absurd (hcs c hch) (List.not_mem_nil c)⟩
        · refine ⟨a, a, fun c hch => ?_⟩
          have := hcs c hch
          rw [List.mem_singleton] at this
          exact Or.inl this
        · refine ⟨a, b, fun c hch => ?_⟩
          have := hcs c hch
          rcases List.mem_cons.mp this with h | h
          · exact Or.inl h
          · exact Or.inr (List.mem_singleton.mp h)
        · exfalso
          simp only [List.length_cons] at hcsl
          omega
      · intro c hch
        obtain ⟨hn, hair, hwat, hsup, hmem⟩ := hB c hch
        exact ⟨hconv c hn, hair, hwat, hsup, hmem⟩
      · intro hex
        exact absurd (hD hex) hflag

/-- A single loaded chunk holding one WATER cell at (0,5,0) over AIR, used to
evaluate the fluid step concretely. -/
def c5Chunk : ChunkData :=
  ⟨fun i => if i = 1280 then B.WATER else if i = 512 then B.STONE else B.AIR, 0, 0⟩

def c5Loop : WaterLoop := ⟨⟨[((0, 0), c5Chunk)]⟩, [], [], 0⟩

theorem updateWaterFlow_cell_spec_witness :
    (0 : Nat) < (if false then 64 else 140) ∧
      readW (waterCellStep false c5Loop (0, 5, 0)).world (0, 4, 0) = B.WATER ∧
      (0, 4, 0) ∈ (waterCellStep false c5Loop (0, 5, 0)).active ∧
      (0, 5, 0) ∈ (waterCellStep false c5Loop (0, 5, 0)).active := by
  have h := (updateWaterFlow_cell_spec false c5Loop 0 5 0 (by decide)).2.1
    (by decide) (by decide) (by decide)
  exact ⟨by decide, h.1, h.2.2.1, h.2.2.2⟩

/-- The block types eaten by the tree-collapse flood fill. -/
def isTreeBlock (b : BlockType) : Bool :=
  b == B.WOOD || b == B.LOG_BIRCH || b == B.LEAVES || b == B.LEAVES_BIRCH

/-- The six axis neighbours pushed by `collapseTree`, in source order. -/
def treeNeighbors (p : Pos) : List Pos :=
  [(p.1, p.2.1 + 1, p.2.2), (p.1, p.2.1 - 1, p.2.2),
   (p.1 + 1, p.2.1, p.2.2), (p.1 - 1, p.2.1, p.2.2),
   (p.1, p.2.1, p.2.2 + 1), (p.1, p.2.1, p.2.2 - 1)]

/-- The flood-fill phase of `collapseTree`: dequeue while the queue is
nonempty and fewer than 200 cells were visited, collecting tree-typed cells
into `toRemove`. Every iteration pops one queue element and the queue receives
at most `1 + 6 * 200` pushes, so fuel `2000` is never exhausted before the
source loop's own exit conditions fire. All reads go to the world as it was
when the collapse started; the writes happen afterwards. -/
def collapseTreeAux (w : World) : Nat → List Pos → List Pos → List Pos → List Pos
  | 0, _, _, toRemove => toRemove
  | _ + 1, [], _, toRemove => toRemove
  | fuel + 1, cur :: rest, visited, toRemove =>
    if visited.length < 200 then
      if cur ∈ visited then collapseTreeAux w fuel rest visited toRemove
      else
        if isTreeBlock (getBlockAtLoaded w cur.1 cur.2.1 cur.2.2) then
          collapseTreeAux w fuel (rest ++ treeNeighbors cur) (visited ++ [cur])
            (toRemove ++ [cur])
        else collapseTreeAux w fuel rest (visited ++ [cur]) toRemove
    else toRemove

/-- `collapseTree` from the renderer: flood-fill the tree, then set every
collected cell to `AIR` through its owning chunk (mesh rebuilds have no grid
effect and are dropped). -/
def collapseTree (w : World) (wx wy wz : Int) : World :=
  (collapseTreeAux w 2000 [(wx, wy, wz)] [] []).foldl
    (fun w1 p => writeBlock w1 p.1 p.2.1 p.2.2 B.AIR) w

/-- The voxel-grid effect of `breakBlock` / `finishBreakingBlock`: resolve the
target chunk, bail out on a missing chunk, an `AIR` target, or a `BEDROCK`
target; otherwise clear the cell and, when it was the base log of a tree,
collapse the tree above it. Item drops, particles, tool damage, break
progress, meshes and network callbacks have no grid effect and are dropped;
both the creative path and the completed survival path run this same grid
mutation. -/
def breakBlockAt (w : World) (px py pz : Int) : World :=
  match findChunk w.chunks (chunkCoord px, chunkCoord pz) with
  | none => w
  | some ch =>
    let existing := getBlock ch (wrap16 px) py (wrap16 pz)
    if existing = B.AIR then w
    else if existing = B.BEDROCK then w
    else
      let isLog := existing = B.WOOD ∨ existing = B.LOG_BIRCH
      let blockBelow := getBlockAtLoaded w px (py - 1) pz
      let blockAbove := getBlockAtLoaded w px (py + 1) pz
      let isTreeBase := isLog ∧ (blockBelow = B.GRASS ∨ blockBelow = B.DIRT) ∧
        (blockAbove = B.WOOD ∨ blockAbove = B.LOG_BIRCH)
      let w1 := writeBlock w px py pz B.AIR
      if isTreeBase then collapseTree w1 px (py + 1) pz else w1

/-- The inclusive integer range `[a, b]` walked by the explosion loops. -/
def intRangeIncl (a b : Int) : List Int :=
  (List.range (b - a + 1).toNat).map (fun i => a + i)

/-- One cell of `explodeTNT`'s sphere: skip offsets outside radius 4, then
clear the cell if it holds neither `AIR` nor `BEDROCK` and its chunk is
loaded (water requeuing and mesh rebuilds have no grid effect). -/
def explodeCell (x y z : Int) (w : World) (d : Pos) : World :=
  if d.1 * d.1 + d.2.1 * d.2.1 + d.2.2 * d.2.2 > 16 then w
  else
    let b := getBlockAtLoaded w (x + d.1) (y + d.2.1) (z + d.2.2)
    if b ≠ B.AIR ∧ b ≠ B.BEDROCK then
      writeBlock w (x + d.1) (y + d.2.1) (z + d.2.2) B.AIR
    else w

/-- The voxel-grid effect of `explodeTNT`: triple loop over offsets `-4..4`. -/
def explodeTNT (w : World) (x y z : Int) : World :=
  (intRangeIncl (-4) 4).foldl (fun w1 dx =>
    (intRangeIncl (-4) 4).foldl (fun w2 dy =>
      (intRangeIncl (-4) 4).foldl (fun w3 dz =>
        explodeCell x y z w3 (dx, dy, dz)) w2) w1) w

/-- The block-destruction phase of the physics engine's `createExplosion`:
loop over the cube of radius `⌈power⌉`, and where
`Math.sqrt(dx*dx+dy*dy+dz*dz) <= power` (encoded by the equivalent squared
comparison together with `0 ≤ power`, since a square root is nonnegative)
clear via `setBlockAt` every cell that holds neither `AIR` nor `BEDROCK`
under `getBlockAt`. Particles, random item drops and logging have no grid
effect and are dropped. -/
def createExplosion (st : SimState) (x y z power : ℚ) : SimState :=
  (intRangeIncl (-⌈power⌉) ⌈power⌉).foldl (fun s1 dx =>
    (intRangeIncl (-⌈power⌉) ⌈power⌉).foldl (fun s2 dy =>
      (intRangeIncl (-⌈power⌉) ⌈power⌉).foldl (fun s3 dz =>
        if 0 ≤ power ∧ ((dx * dx + dy * dy + dz * dz : Int) : ℚ) ≤ power * power then
          let bx := ⌊x + (dx : ℚ)⌋
          let byc := ⌊y + (dy : ℚ)⌋
          let bzc := ⌊z + (dz : ℚ)⌋
          let blockType := getBlockAt s3.world bx byc bzc
          if blockType ≠ B.AIR ∧ blockType ≠ B.BEDROCK then
            setBlockAt s3 bx byc bzc B.AIR
          else s3
        else s3) s2) s1) st

theorem foldl_pres {α β : Type} (P : β → Prop) (f : β → α → β)
    (hf : ∀ b a, P b → P (f b a)) :
    ∀ (l : List α) (b : β), P b → P (l.foldl f b)
  | [], _, hb => hb
  | a :: l, b, hb => foldl_pres P f hf l (f b a) (hf b a hb)

theorem writeBlock_preserves_bedrock {w : World} {x y z : Int} {t : BlockType} {c : Pos}
    (hc : readW w c = B.BEDROCK) (h : getBlockAtLoaded w x y z ≠ B.BEDROCK) :
    readW (writeBlock w x y z t) c = B.BEDROCK := by
  unfold readW at hc ⊢
  rw [getBlockAtLoaded_writeBlock]
  by_cases hcond : c.1 = x ∧ c.2.1 = y ∧ c.2.2 = z ∧ 0 ≤ y ∧ y < 80 ∧
      (findChunk w.chunks (chunkCoord x, chunkCoord z)).isSome
  · exfalso
    obtain ⟨h1, h2, h3, -⟩ := hcond
    rw [← h1, ← h2, ← h3] at h
    exact h hc
  · rw [if_neg hcond]
    exact hc

theorem shouldBlockFall_ne_bedrock {t : BlockType} (h : shouldBlockFall t = true) :
    t ≠ B.BEDROCK := by
  intro hEq
  subst hEq
  exact absurd h (by decide)

theorem setLoadedBlockFast_some {w : World} {x y z : Int} {t : BlockType}
    {rb : List ChunkKey} {prev : BlockType}
    (h : (setLoadedBlockFast w x y z t rb).2.1 = some prev) :
    prev = getBlockAtLoaded w x y z ∧ 0 ≤ y ∧ y < 80 ∧
      (findChunk w.chunks (chunkCoord x, chunkCoord z)).isSome ∧
      (prev ≠ t → (setLoadedBlockFast w x y z t rb).1 = writeBlock w x y z t) := by
  by_cases hy : y < 0 ∨ 80 ≤ y
  · rcases hy with hy | hy
    · rw [setLoadedBlockFast_of_unloaded (Or.inl hy)] at h; cases h
    · rw [setLoadedBlockFast_of_unloaded (Or.inr (Or.inl hy))] at h; cases h
  · push_neg at hy
    cases hf : findChunk w.chunks (chunkCoord x, chunkCoord z) with
    | none =>
      rw [setLoadedBlockFast_of_unloaded (Or.inr (Or.inr hf))] at h
      cases h
    | some ch =>
      have hspec := setLoadedBlockFast_of_loaded hy.1 hy.2 hf t rb
      rw [hspec.1] at h
      have hprev : prev = getBlockAtLoaded w x y z := (Option.some.inj h).symm
      exact ⟨hprev, hy.1, hy.2, by rfl, fun hne => hspec.2.1 (by rw [← hprev]; exact hne)⟩

theorem setBlockAtAux_preserves_bedrock (c : Pos) :
    ∀ (f : Nat) (st : SimState) (x y z : Int) (t : BlockType),
      readW st.world c = B.BEDROCK →
      getBlockAtLoaded st.world x y z ≠ B.BEDROCK →
      readW (setBlockAtAux f st x y z t).world c = B.BEDROCK := by
  intro f
  induction f with
  | zero => intro st x y z t hc _; exact hc
  | succ f ih =>
    intro st x y z t hc h
    have hstep : setBlockAtAux (f + 1) st x y z t =
        (match (setLoadedBlockFast st.world x y z t []).2.1 with
         | none => st
         | some prev =>
           if prev = t then st
           else
             let st1 : SimState :=
               ⟨(setLoadedBlockFast st.world x y z t []).1, st.waterFlowActive,
                 st.fallingBlocks, st.redstoneDirty || checkRS prev || checkRS t⟩
             let st2 := if shouldBlockFall t then
                 setBlockAtAux f
                   { st1 with
                     fallingBlocks := st1.fallingBlocks ++ [makeFallingBlockEnt x y z t] }
                   x y z B.AIR
               else st1
             let st3 := queueWaterAround st2 x y z
             if t = B.WATER then queueWaterAt st3 x y z else st3) := rfl
    rw [hstep]
    cases hr : (setLoadedBlockFast st.world x y z t []).2.1 with
    | none => exact hc
    | some prev =>
      dsimp only
      by_cases hpt : prev = t
      · rw [if_pos hpt]
        exact hc
      · rw [if_neg hpt]
        have htailw : ∀ (s : SimState),
            (if t = B.WATER then queueWaterAt (queueWaterAround s x y z) x y z
             else queueWaterAround s x y z).world = s.world := by
          intro s
          by_cases hwat : t = B.WATER
          · rw [if_pos hwat, queueWaterAt_world, queueWaterAround_world]
          · rw [if_neg hwat, queueWaterAround_world]
        obtain ⟨hprev, hy0, hy1, hsome, hwr⟩ := setLoadedBlockFast_some hr
        have hr1bed : readW (setLoadedBlockFast st.world x y z t []).1 c = B.BEDROCK := by
          rw [hwr hpt]
          exact writeBlock_preserves_bedrock hc h
        rw [htailw]
        by_cases hfall : shouldBlockFall t = true
        · rw [if_pos hfall]
          apply ih
          · exact hr1bed
          · show getBlockAtLoaded (setLoadedBlockFast st.world x y z t []).1 x y z ≠ B.BEDROCK
            rw [hwr hpt, getBlockAtLoaded_writeBlock,
              if_pos ⟨rfl, rfl, rfl, hy0, hy1, hsome⟩]
            exact shouldBlockFall_ne_bedrock hfall
        · rw [if_neg hfall]
          exact hr1bed

theorem setBlockAt_preserves_bedrock {st : SimState} {x y z : Int} {t : BlockType}
    {c : Pos} (hc : readW st.world c = B.BEDROCK)
    (h : getBlockAtLoaded st.world x y z ≠ B.BEDROCK) :
    readW (setBlockAt st x y z t).world c = B.BEDROCK :=
  setBlockAtAux_preserves_bedrock c 2 st x y z t hc h

theorem collapseTreeAux_tree (w : World) :
    ∀ (fuel : Nat) (q v tr : List Pos),
      (∀ p ∈ tr, isTreeBlock (readW w p) = true) →
      ∀ p ∈ collapseTreeAux w fuel q v tr, isTreeBlock (readW w p) = true := by
  intro fuel
  induction fuel with
  | zero => exact fun q v tr h => h
  | succ fuel ih =>
    intro q v tr htr
    cases q with
    | nil => exact htr
    | cons cur rest =>
      show ∀ p ∈ (if v.length < 200 then _ else tr), isTreeBlock (readW w p) = true
      by_cases h200 : v.length < 200
      · rw [if_pos h200]
        by_cases hv : cur ∈ v
        · rw [if_pos hv]
          exact ih rest v tr htr
        · rw [if_neg hv]
          by_cases htree : isTreeBlock (getBlockAtLoaded w cur.1 cur.2.1 cur.2.2) = true
          · rw [if_pos htree]
            refine ih _ _ _ ?_
            intro p hp
            rcases List.mem_append.mp hp with hmem | hmem
            · exact htr p hmem
            · rw [List.mem_singleton.mp hmem]
              exact htree
          · rw [if_neg htree]
            exact ih _ _ _ htr
      · rw [if_neg h200]
        exact htr

theorem fold_air_writes_preserve_bedrock (c : Pos) :
    ∀ (l : List Pos) (w0 w1 : World),
      (∀ p ∈ l, isTreeBlock (readW w0 p) = true) →
      (∀ q : Pos, readW w1 q = readW w0 q ∨ readW w1 q = B.AIR) →
      readW w1 c = B.BEDROCK →
      readW (l.foldl (fun wa p => writeBlock wa p.1 p.2.1 p.2.2 B.AIR) w1) c
        = B.BEDROCK := by
  intro l
  induction l with
  | nil => intro w0 w1 _ _ hc; exact hc
  | cons p rest ih =>
    intro w0 w1 hl hJ hc
    rw [List.foldl_cons]
    have hp := hl p (List.mem_cons_self p rest)
    have hpne : getBlockAtLoaded w1 p.1 p.2.1 p.2.2 ≠ B.BEDROCK := by
      show readW w1 p ≠ B.BEDROCK
      rcases hJ p with hsame | hair
      · rw [hsame]
        intro hbed
        rw [hbed] at hp
        exact absurd hp (by decide)
      · rw [hair]
        decide
    refine ih w0 _ (fun q hq => hl q (List.mem_cons_of_mem p hq)) ?_
      (writeBlock_preserves_bedrock hc hpne)
    intro q
    by_cases hcond : q.1 = p.1 ∧ q.2.1 = p.2.1 ∧ q.2.2 = p.2.2 ∧ 0 ≤ p.2.1 ∧
        p.2.1 < 80 ∧ (findChunk w1.chunks (chunkCoord p.1, chunkCoord p.2.2)).isSome
    · right
      show getBlockAtLoaded (writeBlock w1 p.1 p.2.1 p.2.2 B.AIR) q.1 q.2.1 q.2.2 = B.AIR
      rw [getBlockAtLoaded_writeBlock, if_pos hcond]
    · have hnc : readW (writeBlock w1 p.1 p.2.1 p.2.2 B.AIR) q = readW w1 q := by
        show getBlockAtLoaded (writeBlock w1 p.1 p.2.1 p.2.2 B.AIR) q.1 q.2.1 q.2.2 = _
        rw [getBlockAtLoaded_writeBlock, if_neg hcond]
        rfl
      rw [hnc]
      exact hJ q

theorem collapseTree_preserves_bedrock {w : World} {wx wy wz : Int} {c : Pos}
    (hc : readW w c = B.BEDROCK) :
    readW (collapseTree w wx wy wz) c = B.BEDROCK := by
  unfold collapseTree
  exact fold_air_writes_preserve_bedrock c _ w w
    (collapseTreeAux_tree w 2000 _ _ _ (fun p hp => absurd hp (List.not_mem_nil p)))
    (fun _ => Or.inl rfl) hc

theorem getBlockAt_eq_of_loaded_ne_air {w : World} {x y z : Int}
    (h : getBlockAtLoaded w x y z ≠ B.AIR) :
    getBlockAt w x y z = getBlockAtLoaded w x y z := by
  unfold getBlockAtLoaded at h
  unfold getBlockAt getBlockAtLoaded
  by_cases hy : y < 0 ∨ CHUNK_HEIGHT ≤ y
  · rw [if_pos hy] at h
    exact absurd rfl h
  · rw [if_neg hy] at h ⊢
    cases hf : findChunk w.chunks (chunkCoord x, chunkCoord z) with
    | none =>
      rw [hf] at h
      exact absurd rfl h
    | some ch =>
      rw [if_neg hy]

/-- C10: no destruction operation removes `BEDROCK`. `breakBlock` returns
before mutating the grid when the target holds `BEDROCK` (and its tree
collapse only clears tree-typed cells), `explodeTNT` clears a cell only when
it holds neither `AIR` nor `BEDROCK`, and the physics engine's
`createExplosion` does the same through `setBlockAt`; hence any cell holding
`BEDROCK` still holds it afterwards. -/
theorem bedrock_never_destroyed (c : Pos) :
    (∀ (w : World) (px py pz : Int), readW w c = B.BEDROCK →
      readW (breakBlockAt w px py pz) c = B.BEDROCK) ∧
    (∀ (w : World) (x y z : Int), readW w c = B.BEDROCK →
      readW (explodeTNT w x y z) c = B.BEDROCK) ∧
    (∀ (st : SimState) (x y z power : ℚ), readW st.world c = B.BEDROCK →
      readW (createExplosion st x y z power).world c = B.BEDROCK) := by
  refine ⟨?_, ?_, ?_⟩
  · intro w px py pz hc
    unfold breakBlockAt
    cases hf : findChunk w.chunks (chunkCoord px, chunkCoord pz) with
    | none => exact hc
    | some ch =>
      dsimp only
      by_cases hair : getBlock ch (wrap16 px) py (wrap16 pz) = B.AIR
      · rw [if_pos hair]
        exact hc
      · rw [if_neg hair]
        by_cases hbed : getBlock ch (wrap16 px) py (wrap16 pz) = B.BEDROCK
        · rw [if_pos hbed]
          exact hc
        · rw [if_neg hbed]
          have hne : getBlockAtLoaded w px py pz ≠ B.BEDROCK := by
            unfold getBlockAtLoaded
            by_cases hy : py < 0 ∨ CHUNK_HEIGHT ≤ py
            · rw [if_pos hy]
              decide
            · rw [if_neg hy, hf]
              exact hbed
          have hc1 := writeBlock_preserves_bedrock (t := B.AIR) hc hne
          split
          · exact collapseTree_preserves_bedrock hc1
          · exact hc1
  · intro w x y z hc
    unfold explodeTNT
    refine foldl_pres (fun w' => readW w' c = B.BEDROCK) _ ?_ _ w hc
    intro w1 dx h1
    refine foldl_pres (fun w' => readW w' c = B.BEDROCK) _ ?_ _ w1 h1
    intro w2 dy h2
    refine foldl_pres (fun w' => readW w' c = B.BEDROCK) _ ?_ _ w2 h2
    intro w3 dz h3
    unfold explodeCell
    split
    · exact h3
    · dsimp only
      split
      · next hguard => exact writeBlock_preserves_bedrock h3 hguard.2
      · exact h3
  · intro st x y z power hc
    unfold createExplosion
    refine foldl_pres (fun s' => readW s'.world c = B.BEDROCK) _ ?_ _ st hc
    intro s1 dx h1
    refine foldl_pres (fun s' => readW s'.world c = B.BEDROCK) _ ?_ _ s1 h1
    intro s2 dy h2
    refine foldl_pres (fun s' => readW s'.world c = B.BEDROCK) _ ?_ _ s2 h2
    intro s3 dz h3
    dsimp only
    split
    · split
      · next hguard =>
        apply setBlockAt_preserves_bedrock h3
        intro hbedl
        exact hguard.2 (by
          rw [getBlockAt_eq_of_loaded_ne_air (by rw [hbedl]; decide)]
          exact hbedl)
      · exact h3
    · exact h3

/-! ### Player collision (`collideAxis`, `update`)

`collideAxis` moves one coordinate of the player's AABB by `vel[axis] * dt`,
scans every integer cell overlapped by the moved box (x outer, y middle,
z inner — `List.find?` returns the first solid cell in that order), and on a
hit clamps the coordinate to the cell boundary matching the velocity sign,
zeroes that axis's velocity, and latches `onGround` only for a downward y
hit; on a miss the coordinate is simply updated.  The `update` loop (survival
branch) applies gravity to `velocity.y`, clears `onGround`, sweeps y, then x,
then z, and finally clamps `y` to at least 0.  Positions and velocities are
exact rationals; the camera, jumping (modelled with the jump key released),
fall damage and mesh work have no effect on position, velocity or
`onGround` and are dropped; the horizontal move vector is passed in as the
two numbers the source assigns to `velocity.x` / `velocity.z`. -/

structure Vec3 where
  x : ℚ
  y : ℚ
  z : ℚ
deriving DecidableEq

inductive Axis where
  | x
  | y
  | z

/-- `isBlockSolid` from the renderer. -/
def isBlockSolid (w : World) (p : Pos) : Bool :=
  isCollidable (getBlockAt w p.1 p.2.1 p.2.2)

/-- The cells `(bx, by, bz)` visited by `collideAxis`'s triple loop, in loop
order (x outer, y middle, z inner). -/
def cellsOf (xs ys zs : List Int) : List Pos :=
  xs.foldr (fun a acc =>
    ys.foldr (fun b acc2 => zs.foldr (fun c0 acc3 => (a, b, c0) :: acc3) acc2) acc) []

/-- The integer cells overlapped by the player box once coordinate `axis` has
been moved to `pos[axis] + vel[axis] * dt`: the box spans
`[tp - hw, tp + hw - 0.001]` horizontally and `[tp.y, tp.y + 1.7 - 0.001]`
vertically, and the loops run over the floors of those bounds. -/
def sweptCells (pos vel : Vec3) (axis : Axis) (dt : ℚ) : List Pos :=
  let hw := PLAYER_WIDTH / 2
  let tp : Vec3 := match axis with
    | Axis.x => ⟨pos.x + vel.x * dt, pos.y, pos.z⟩
    | Axis.y => ⟨pos.x, pos.y + vel.y * dt, pos.z⟩
    | Axis.z => ⟨pos.x, pos.y, pos.z + vel.z * dt⟩
  cellsOf
    (intRangeIncl ⌊tp.x - hw⌋ ⌊tp.x + hw - 1/1000⌋)
    (intRangeIncl ⌊tp.y⌋ ⌊tp.y + PLAYER_HEIGHT - 1/1000⌋)
    (intRangeIncl ⌊tp.z - hw⌋ ⌊tp.z + hw - 1/1000⌋)

/-- The first solid cell met by `collideAxis`'s scan, if any. -/
def collideFirstHit (w : World) (pos vel : Vec3) (axis : Axis) (dt : ℚ) : Option Pos :=
  (sweptCells pos vel axis dt).find? (fun p => isBlockSolid w p)

/-- `collideAxis` from the renderer, returning the new position, velocity and
`onGround` flag (`g` is the flag's value on entry). -/
def collideAxis (w : World) (pos vel : Vec3) (axis : Axis) (dt : ℚ) (g : Bool) :
    Vec3 × Vec3 × Bool :=
  match collideFirstHit w pos vel axis dt, axis with
  | some hit, Axis.y =>
    if vel.y < 0 then (⟨pos.x, (hit.2.1 : ℚ) + 1, pos.z⟩, ⟨vel.x, 0, vel.z⟩, true)
    else (⟨pos.x, (hit.2.1 : ℚ) - PLAYER_HEIGHT, pos.z⟩, ⟨vel.x, 0, vel.z⟩, g)
  | some hit, Axis.x =>
    (⟨if vel.x > 0 then (hit.1 : ℚ) - PLAYER_WIDTH / 2
      else (hit.1 : ℚ) + 1 + PLAYER_WIDTH / 2, pos.y, pos.z⟩,
     ⟨0, vel.y, vel.z⟩, g)
  | some hit, Axis.z =>
    (⟨pos.x, pos.y,
      if vel.z > 0 then (hit.2.2 : ℚ) - PLAYER_WIDTH / 2
      else (hit.2.2 : ℚ) + 1 + PLAYER_WIDTH / 2⟩,
     ⟨vel.x, vel.y, 0⟩, g)
  | none, Axis.x => (⟨pos.x + vel.x * dt, pos.y, pos.z⟩, vel, g)
  | none, Axis.y => (⟨pos.x, pos.y + vel.y * dt, pos.z⟩, vel, g)
  | none, Axis.z => (⟨pos.x, pos.y, pos.z + vel.z * dt⟩, vel, g)

/-- The survival-mode physics portion of `update`: horizontal velocity from
the move vector, gravity, `onGround := false`, the y → x → z collision sweep,
and the final clamp of `y` to at least 0. -/
def physicsStep (w : World) (pos vel : Vec3) (mvx mvz : ℚ) (dt : ℚ) :
    Vec3 × Vec3 × Bool :=
  let vel1 : Vec3 := ⟨mvx, vel.y - GRAVITY * dt, mvz⟩
  let r1 := collideAxis w pos vel1 Axis.y dt false
  let r2 := collideAxis w r1.1 r1.2.1 Axis.x dt r1.2.2
  let r3 := collideAxis w r2.1 r2.2.1 Axis.z dt r2.2.2
  (⟨r3.1.x, max 0 r3.1.y, r3.1.z⟩, r3.2.1, r3.2.2)

/-- A flat world: one loaded chunk, solid `STONE` for `y ≤ 10`, `AIR`
above — the surface's top solid cell is `y = 10`. -/
def c6Chunk : ChunkData := ⟨fun i => if i < 2816 then B.STONE else B.AIR, 0, 0⟩

def c6World : World := ⟨[((0, 0), c6Chunk)]⟩

/-- A one-block-thick floor: solid `STONE` only at `y = 10`, `AIR` elsewhere. -/
def c6ThinChunk : ChunkData :=
  ⟨fun i => if 2560 ≤ i ∧ i < 2816 then B.STONE else B.AIR, 0, 0⟩

def c6ThinWorld : World := ⟨[((0, 0), c6ThinChunk)]⟩

theorem c6_sweep_fall1 : sweptCells ⟨8, 2201/200, 8⟩ ⟨0, -(1/3), 0⟩ Axis.y (1/60)
    = cellsOf [7, 8] [10, 11, 12] [7, 8] := by
  unfold sweptCells
  dsimp only
  norm_num [PLAYER_WIDTH, PLAYER_HEIGHT]
  decide

theorem c6_hit_fall : (cellsOf [7, 8] [10, 11, 12] [7, 8]).find?
    (fun p => isBlockSolid c6World p) = some (7, 10, 7) := by decide

theorem c6_step_fall1 :
    collideAxis c6World ⟨8, 2201/200, 8⟩ ⟨0, -(1/3), 0⟩ Axis.y (1/60) false
      = (⟨8, 11, 8⟩, ⟨0, 0, 0⟩, true) := by
  unfold collideAxis collideFirstHit
  rw [c6_sweep_fall1, c6_hit_fall]
  dsimp only
  rw [if_pos (show -(1/3 : ℚ) < 0 from by norm_num),
    show ((10 : Int) : ℚ) + 1 = 11 from by norm_num]

theorem c6_sweep_x1 : sweptCells ⟨8, 11, 8⟩ ⟨0, 0, 0⟩ Axis.x (1/60)
    = cellsOf [7, 8] [11, 12] [7, 8] := by
  unfold sweptCells
  dsimp only
  norm_num [PLAYER_WIDTH, PLAYER_HEIGHT]
  decide

theorem c6_miss_level : (cellsOf [7, 8] [11, 12] [7, 8]).find?
    (fun p => isBlockSolid c6World p) = none := by decide

theorem c6_step_x1 : collideAxis c6World ⟨8, 11, 8⟩ ⟨0, 0, 0⟩ Axis.x (1/60) true
    = (⟨8, 11, 8⟩, ⟨0, 0, 0⟩, true) := by
  unfold collideAxis collideFirstHit
  rw [c6_sweep_x1, c6_miss_level]
  dsimp only
  rw [show (8 : ℚ) + 0 * (1/60) = 8 from by norm_num]

theorem c6_sweep_z1 : sweptCells ⟨8, 11, 8⟩ ⟨0, 0, 0⟩ Axis.z (1/60)
    = cellsOf [7, 8] [11, 12] [7, 8] := by
  unfold sweptCells
  dsimp only
  norm_num [PLAYER_WIDTH, PLAYER_HEIGHT]
  decide

theorem c6_step_z1 : collideAxis c6World ⟨8, 11, 8⟩ ⟨0, 0, 0⟩ Axis.z (1/60) true
    = (⟨8, 11, 8⟩, ⟨0, 0, 0⟩, true) := by
  unfold collideAxis collideFirstHit
  rw [c6_sweep_z1, c6_miss_level]
  dsimp only
  rw [show (8 : ℚ) + 0 * (1/60) = 8 from by norm_num]

theorem c6_sweep_fall2 : sweptCells ⟨8, 11, 8⟩ ⟨0, -(1/3), 0⟩ Axis.y (1/60)
    = cellsOf [7, 8] [10, 11, 12] [7, 8] := by
  unfold sweptCells
  dsimp only
  norm_num [PLAYER_WIDTH, PLAYER_HEIGHT]
  decide

theorem c6_step_fall2 :
    collideAxis c6World ⟨8, 11, 8⟩ ⟨0, -(1/3), 0⟩ Axis.y (1/60) false
      = (⟨8, 11, 8⟩, ⟨0, 0, 0⟩, true) := by
  unfold collideAxis collideFirstHit
  rw [c6_sweep_fall2, c6_hit_fall]
  dsimp only
  rw [if_pos (show -(1/3 : ℚ) < 0 from by norm_num),
    show ((10 : Int) : ℚ) + 1 = 11 from by norm_num]

theorem c6_sweep_fast : sweptCells ⟨8, 56/5, 8⟩ ⟨0, -30, 0⟩ Axis.y (1/10)
    = cellsOf [7, 8] [8, 9] [7, 8] := by
  unfold sweptCells
  dsimp only
  norm_num [PLAYER_WIDTH, PLAYER_HEIGHT]
  decide

theorem c6_fast_yhit : collideFirstHit c6World ⟨8, 56/5, 8⟩ ⟨0, -30, 0⟩ Axis.y (1/10)
    = some (7, 8, 7) := by
  unfold collideFirstHit
  rw [c6_sweep_fast]
  decide

theorem c6_thin_miss_low : (cellsOf [7, 8] [8, 9] [7, 8]).find?
    (fun p => isBlockSolid c6ThinWorld p) = none := by decide

theorem c6_step_tunnel_y :
    collideAxis c6ThinWorld ⟨8, 56/5, 8⟩ ⟨0, -30, 0⟩ Axis.y (1/10) false
      = (⟨8, 41/5, 8⟩, ⟨0, -30, 0⟩, false) := by
  unfold collideAxis collideFirstHit
  rw [c6_sweep_fast, c6_thin_miss_low]
  dsimp only
  rw [show (56 / 5 : ℚ) + -30 * (1 / 10) = 41 / 5 from by norm_num]

theorem c6_sweep_tx : sweptCells ⟨8, 41/5, 8⟩ ⟨0, -30, 0⟩ Axis.x (1/10)
    = cellsOf [7, 8] [8, 9] [7, 8] := by
  unfold sweptCells
  dsimp only
  norm_num [PLAYER_WIDTH, PLAYER_HEIGHT]
  decide

theorem c6_step_tunnel_x :
    collideAxis c6ThinWorld ⟨8, 41/5, 8⟩ ⟨0, -30, 0⟩ Axis.x (1/10) false
      = (⟨8, 41/5, 8⟩, ⟨0, -30, 0⟩, false) := by
  unfold collideAxis collideFirstHit
  rw [c6_sweep_tx, c6_thin_miss_low]
  dsimp only
  rw [show (8 : ℚ) + 0 * (1 / 10) = 8 from by norm_num]

theorem c6_sweep_tz : sweptCells ⟨8, 41/5, 8⟩ ⟨0, -30, 0⟩ Axis.z (1/10)
    = cellsOf [7, 8] [8, 9] [7, 8] := by
  unfold sweptCells
  dsimp only
  norm_num [PLAYER_WIDTH, PLAYER_HEIGHT]
  decide

theorem c6_step_tunnel_z :
    collideAxis c6ThinWorld ⟨8, 41/5, 8⟩ ⟨0, -30, 0⟩ Axis.z (1/10) false
      = (⟨8, 41/5, 8⟩, ⟨0, -30, 0⟩, false) := by
  unfold collideAxis collideFirstHit
  rw [c6_sweep_tz, c6_thin_miss_low]
  dsimp only
  rw [show (8 : ℚ) + 0 * (1 / 10) = 8 from by norm_num]

/-- C6: per-axis collision clamping — on the first solid cell met by the
sweep the moved coordinate is clamped to the boundary matching the velocity
sign, that axis's velocity is zeroed, and `onGround` latches only on a
downward y hit (x/z hits and upward y hits leave it unchanged); on a miss the
coordinate is simply moved.  A body released just above a flat surface whose
top solid cell is `y = 10` comes to rest in one `y → x → z` tick at
`bottom = 11 = surface + 1` with `velocity.y = 0` and `onGround = true`, and
that resting state reproduces itself on the next tick. -/
theorem collision_axis_clamp_and_rest :
    (∀ (w : World) (pos vel : Vec3) (dt : ℚ) (g : Bool) (bx b bz : Int),
      collideFirstHit w pos vel Axis.y dt = some (bx, b, bz) →
      isBlockSolid w (bx, b, bz) = true ∧
      (vel.y < 0 → collideAxis w pos vel Axis.y dt g
          = (⟨pos.x, (b : ℚ) + 1, pos.z⟩, ⟨vel.x, 0, vel.z⟩, true)) ∧
      (¬vel.y < 0 → collideAxis w pos vel Axis.y dt g
          = (⟨pos.x, (b : ℚ) - PLAYER_HEIGHT, pos.z⟩, ⟨vel.x, 0, vel.z⟩, g))) ∧
    (∀ (w : World) (pos vel : Vec3) (dt : ℚ) (g : Bool) (bx b bz : Int),
      collideFirstHit w pos vel Axis.x dt = some (bx, b, bz) →
      isBlockSolid w (bx, b, bz) = true ∧
      collideAxis w pos vel Axis.x dt g
        = (⟨if vel.x > 0 then (bx : ℚ) - PLAYER_WIDTH / 2
            else (bx : ℚ) + 1 + PLAYER_WIDTH / 2, pos.y, pos.z⟩,
           ⟨0, vel.y, vel.z⟩, g)) ∧
    (∀ (w : World) (pos vel : Vec3) (dt : ℚ) (g : Bool) (bx b bz : Int),
      collideFirstHit w pos vel Axis.z dt = some (bx, b, bz) →
      isBlockSolid w (bx, b, bz) = true ∧
      collideAxis w pos vel Axis.z dt g
        = (⟨pos.x, pos.y,
            if vel.z > 0 then (bz : ℚ) - PLAYER_WIDTH / 2
            else (bz : ℚ) + 1 + PLAYER_WIDTH / 2⟩,
           ⟨vel.x, vel.y, 0⟩, g)) ∧
    (∀ (w : World) (pos vel : Vec3) (dt : ℚ) (g : Bool),
      collideFirstHit w pos vel Axis.y dt = none →
      collideAxis w pos vel Axis.y dt g
        = (⟨pos.x, pos.y + vel.y * dt, pos.z⟩, vel, g)) ∧
    (isBlockSolid c6World (8, 10, 8) = true ∧
      isBlockSolid c6World (8, 11, 8) = false ∧
      physicsStep c6World ⟨8, 2201/200, 8⟩ ⟨0, 0, 0⟩ 0 0 (1/60)
        = (⟨8, 11, 8⟩, ⟨0, 0, 0⟩, true) ∧
      physicsStep c6World ⟨8, 11, 8⟩ ⟨0, 0, 0⟩ 0 0 (1/60)
        = (⟨8, 11, 8⟩, ⟨0, 0, 0⟩, true)) := by
  refine ⟨?_, ?_, ?_, ?_, ?_, ?_, ?_, ?_⟩
  · intro w pos vel dt g bx b bz hfind
    refine ⟨List.find?_some hfind, ?_, ?_⟩
    · intro hneg
      unfold collideAxis
      rw [hfind]
      dsimp only
      rw [if_pos hneg]
    · intro hpos
      unfold collideAxis
      rw [hfind]
      dsimp only
      rw [if_neg hpos]
  · intro w pos vel dt g bx b bz hfind
    refine ⟨List.find?_some hfind, ?_⟩
    unfold collideAxis
    rw [hfind]
  · intro w pos vel dt g bx b bz hfind
    refine ⟨List.find?_some hfind, ?_⟩
    unfold collideAxis
    rw [hfind]
  · intro w pos vel dt g hnone
    unfold collideAxis
    rw [hnone]
  · decide
  · decide
  · unfold physicsStep
    dsimp only
    rw [show (0 : ℚ) - GRAVITY * (1 / 60) = -(1 / 3) from by norm_num [GRAVITY]]
    rw [c6_step_fall1]
    dsimp only
    rw [c6_step_x1]
    dsimp only
    rw [c6_step_z1]
    dsimp only
    rw [show max (0 : ℚ) 11 = 11 from max_eq_right (by norm_num)]
  · unfold physicsStep
    dsimp only
    rw [show (0 : ℚ) - GRAVITY * (1 / 60) = -(1 / 3) from by norm_num [GRAVITY]]
    rw [c6_step_fall2]
    dsimp only
    rw [c6_step_x1]
    dsimp only
    rw [c6_step_z1]
    dsimp only
    rw [show max (0 : ℚ) 11 = 11 from max_eq_right (by norm_num)]

/-- With the frame delta clamped at `0.1 s`, one tick of a fast fall carries
the box from strictly above a one-block-thick solid floor to strictly below
it without registering a hit: the sweep only tests the cells of the moved
box, not the path, so the body keeps falling (`onGround` stays `false`, the
velocity keeps growing) and never comes to rest on that surface — the
starting state is the one a drop from rest at `y = 32.2` reaches after 14
ticks of `dt = 0.1`, every earlier box staying strictly above the floor. -/
theorem collision_fast_fall_tunnels :
    isBlockSolid c6ThinWorld (8, 10, 8) = true ∧
      (10 : ℚ) + 1 ≤ 56 / 5 ∧
      41 / 5 + PLAYER_HEIGHT < 10 ∧
      physicsStep c6ThinWorld ⟨8, 56/5, 8⟩ ⟨0, -28, 0⟩ 0 0 (1/10)
        = (⟨8, 41/5, 8⟩, ⟨0, -30, 0⟩, false) := by
  refine ⟨by decide, by norm_num, by norm_num [PLAYER_HEIGHT], ?_⟩
  unfold physicsStep
  dsimp only
  rw [show (-28 : ℚ) - GRAVITY * (1 / 10) = -30 from by norm_num [GRAVITY]]
  rw [c6_step_tunnel_y]
  dsimp only
  rw [c6_step_tunnel_x]
  dsimp only
  rw [c6_step_tunnel_z]
  dsimp only
  rw [show max (0 : ℚ) (41 / 5) = 41 / 5 from max_eq_right (by norm_num)]

theorem collision_axis_clamp_and_rest_witness :
    (⟨(0 : ℚ), -30, 0⟩ : Vec3).y < 0 ∧
      collideAxis c6World ⟨8, 56/5, 8⟩ ⟨0, -30, 0⟩ Axis.y (1/10) false
        = (⟨(⟨(8 : ℚ), 56/5, 8⟩ : Vec3).x, ((8 : Int) : ℚ) + 1,
            (⟨(8 : ℚ), 56/5, 8⟩ : Vec3).z⟩,
           ⟨(⟨(0 : ℚ), -30, 0⟩ : Vec3).x, 0, (⟨(0 : ℚ), -30, 0⟩ : Vec3).z⟩, true) :=
  ⟨by decide,
    (collision_axis_clamp_and_rest.1 c6World ⟨8, 56/5, 8⟩ ⟨0, -30, 0⟩ (1/10) false
      7 8 7 c6_fast_yhit).2.1 (by decide)⟩

def c10Chunk : ChunkData := ⟨fun i => if i = 0 then B.BEDROCK else B.STONE, 0, 0⟩

def c10World : World := ⟨[((0, 0), c10Chunk)]⟩

def c10State : SimState := ⟨c10World, [], [], false⟩

theorem bedrock_never_destroyed_witness :
    readW c10World (0, 0, 0) = B.BEDROCK ∧
      readW (breakBlockAt c10World 0 0 0) (0, 0, 0) = B.BEDROCK ∧
      readW (explodeTNT c10World 0 0 0) (0, 0, 0) = B.BEDROCK ∧
      readW (createExplosion c10State 0 0 0 2).world (0, 0, 0) = B.BEDROCK := by
  have h := bedrock_never_destroyed (0, 0, 0)
  exact ⟨by decide, h.1 c10World 0 0 0 (by decide), h.2.1 c10World 0 0 0 (by decide),
    h.2.2 c10State 0 0 0 2 (by decide)⟩

end Creativ44
